import Mathlib

/-!
Shallow embedding of the order/payment/key-issuance core of the
`web-marketplace` storefront, together with proofs about the claims of
the natural-language specification.

The embedding mirrors the TypeScript source:

* `src/lib/key-generator.ts`           — `generateKey`, `calculateExpireDate`
* `src/lib/omise.ts`                   — `createPromptpayCharge` amount checks
* `src/app/api/webhooks/omise/route.ts`— signature check, `handleChargeCreate`,
                                         `handleChargeComplete`, `handleChargeExpire`, `POST`
* `src/app/api/orders/create/route.ts` — order-creation flow `POST`
* `src/app/api/orders/[id]/cancel/route.ts` — cancellation `POST`
* key verification route               — `GET` (activation / verification)

JavaScript `Date` values are modelled as a free syntax of instants
(`DateV`): the base instant together with the calendar operations the
source applies (`setFullYear(y+100)` = `addYears`, `setDate(d+n)` =
`addDays`).  Database tables are lists of records; each HTTP handler is a
pure function from its inputs and the database state to the new state and
a response.  Network calls (Omise, fetch) are injected as explicit
arguments, and randomness (`generateKey`) is injected as a stream of
candidate codes.
-/

deriving instance DecidableEq for Except

/-- A JavaScript `Date` instant, as free syntax over the operations the
source performs on dates.  `addYears d n` models
`d.setFullYear(d.getFullYear() + n)` and `addDays d n` models
`d.setDate(d.getDate() + n)`. -/
inductive DateV : Type where
  | base : DateV
  | addYears : DateV → Int → DateV
  | addDays : DateV → Int → DateV
deriving DecidableEq, Repr

/-- JavaScript `String.prototype.toUpperCase` (ASCII fragment). -/
def jsToUpperCase (s : String) : String :=
  ⟨s.data.map Char.toUpper⟩

/-- Helper for `jsReplaceFirst`: if `pat` is a prefix of `l`, return the
rest of `l` after the match. -/
def dropPat : List Char → List Char → Option (List Char)
  | [], l => some l
  | _ :: _, [] => none
  | p :: ps, c :: cs => if p = c then dropPat ps cs else none

/-- Remove the first occurrence of `pat` in `l` (empty `pat` matches at
position 0, removing nothing), as `String.prototype.replace(pat, "")`
does for a string pattern. -/
def replaceFirstList (pat : List Char) : List Char → List Char
  | [] => match dropPat pat [] with
    | some rest => rest
    | none => []
  | c :: cs => match dropPat pat (c :: cs) with
    | some rest => rest
    | none => c :: replaceFirstList pat cs

/-- JavaScript `s.replace(pat, "")` for a plain-string `pat`: removes the
first occurrence of `pat` anywhere in `s`. -/
def jsReplaceFirst (s pat : String) : String :=
  ⟨replaceFirstList pat.data s.data⟩

/-- JavaScript whitespace accepted by `parseInt` (ASCII fragment). -/
def isJsSpace (c : Char) : Bool :=
  c = ' ' || c = '\t' || c = '\n' || c = '\r' || c = '\x0b' || c = '\x0c'

/-- JavaScript `String.prototype.trim` (ASCII whitespace fragment):
drop whitespace from both ends. -/
def jsTrim (s : String) : String :=
  ⟨((s.data.dropWhile (fun c => isJsSpace c)).reverse.dropWhile
    (fun c => isJsSpace c)).reverse⟩

/-- Decimal digit value of a character, if any. -/
def digitVal (c : Char) : Option Nat :=
  if c.isDigit then some (c.toNat - '0'.toNat) else none

/-- Hexadecimal digit value of a character, if any. -/
def hexVal (c : Char) : Option Nat :=
  if c.isDigit then some (c.toNat - '0'.toNat)
  else if 'a' ≤ c ∧ c ≤ 'f' then some (c.toNat - 'a'.toNat + 10)
  else if 'A' ≤ c ∧ c ≤ 'F' then some (c.toNat - 'A'.toNat + 10)
  else none

/-- Accumulate the leading digits of `l` under digit reader `val`;
`none` when no leading digit exists. -/
def takeDigits (val : Char → Option Nat) (base : Nat) : List Char → Option Nat → Option Nat
  | [], acc => acc
  | c :: cs, acc =>
    match val c with
    | some d => takeDigits val base cs (some ((acc.getD 0) * base + d))
    | none => acc

/-- JavaScript `parseInt(s)` (no explicit radix): skip leading
whitespace, read an optional sign, detect a `0x`/`0X` prefix (hex),
then read the longest prefix of digits, ignoring any trailing
characters; `none` models `NaN`. -/
def jsStripSign : List Char → Int × List Char
  | '-' :: rest => (-1, rest)
  | '+' :: rest => (1, rest)
  | l => (1, l)

/-- The magnitude part of `parseInt`: a `0x`/`0X` prefix switches to
hexadecimal, otherwise the longest decimal-digit prefix is read. -/
def jsMagnitude : List Char → Option Nat
  | '0' :: x :: rest =>
    if x = 'x' ∨ x = 'X' then takeDigits hexVal 16 rest none
    else takeDigits digitVal 10 ('0' :: x :: rest) none
  | l => takeDigits digitVal 10 l none

def jsParseInt (s : String) : Option Int :=
  let l := s.data.dropWhile (fun c => isJsSpace c)
  let signed := jsStripSign l
  (jsMagnitude signed.2).map (fun n => signed.1 * (n : Int))

/-- `calculateExpireDate` from `src/lib/key-generator.ts`.  The absent /
falsy / `'Never'` policies yield activation + 100 years; otherwise the
first `'D'` is removed and the remainder is `parseInt`-ed; a `NaN`
result raises the `Invalid expireDays format` error (modelled as
`Except.error`). -/
def calculateExpireDate (expireDays : Option String) (activateDate : DateV) :
    Except String DateV :=
  match expireDays with
  | none => .ok (.addYears activateDate 100)
  | some s =>
    if s = "" ∨ s = "Never" then
      .ok (.addYears activateDate 100)
    else
      match jsParseInt (jsReplaceFirst s "D") with
      | none => .error ("Invalid expireDays format: " ++ s)
      | some days => .ok (.addDays activateDate days)

/-- JavaScript `Math.round` on an exact rational input: the floor of
`q + 1/2`. -/
def jsRound (q : ℚ) : Int := ⌊q + 1 / 2⌋

/-- The data `createPromptpayCharge` returns to its caller
(`src/lib/omise.ts`): the fields of the Omise charge that the
order-creation flow consumes. -/
structure ChargeResp : Type where
  id : String
  qrCodeUrl : Option String
deriving DecidableEq, Repr

/-- `createPromptpayCharge` from `src/lib/omise.ts`, with the network
interaction injected as `network` (the outcome of the `fetch` to the
Omise `/charges` endpoint).  The amount is converted to satang with
`Math.round(amount * 100)` and validated against the PromptPay limits
before the request body is even built, so an out-of-range amount fails
without consulting `network` at all. -/
def createPromptpayCharge (amount : ℚ) (network : Except String ChargeResp) :
    Except String ChargeResp :=
  if jsRound (amount * 100) < 2000 then
    .error "Amount must be at least THB20.00"
  else if jsRound (amount * 100) > 15000000 then
    .error "Amount must not exceed THB150,000.00"
  else
    network

/-- Catalog `Product` row (the fields the core reads). -/
structure Product : Type where
  id : String
  price : ℚ
  stock : Option Int
  type : String
  expireDays : Option String
  isActive : Bool
deriving DecidableEq, Repr

/-- `Order` row.  The embedded `userData` snapshot is carried by the
source but never read back by any claim-relevant operation except for
key generation metadata, so it is not modelled field by field. -/
structure Order : Type where
  id : String
  userId : String
  status : String
  omiseChargeId : Option String
  qrCodeUrl : Option String
  paymentMethod : Option String
  totalAmount : ℚ
deriving DecidableEq, Repr

/-- `OrderItem` row; `productType` and `productExpireDays` are the parts
of the embedded `productData` snapshot the core reads back. -/
structure OrderItem : Type where
  id : String
  orderId : String
  productId : String
  productType : String
  productExpireDays : Option String
  quantity : Nat
  price : ℚ
  code : Option String
deriving DecidableEq, Repr

/-- `Key` row; snapshot payloads (`orderData`, `userData`, …) are kept
only as the fields the verification route reads back. -/
structure Key : Type where
  id : String
  key : String
  orderId : String
  orderItemId : String
  productId : String
  userId : String
  productType : String
  productExpireDays : Option String
  purchaseDate : DateV
  expireDate : DateV
  activateDate : Option DateV
  hwid : Option String
  placeId : Option String
  isActive : Bool
deriving DecidableEq, Repr

/-- Append-only `KeyLog` row (the fields the handlers write). -/
structure KeyLog : Type where
  keyId : String
  action : String
  hwid : Option String
  placeId : Option String
  success : Bool
  message : String
deriving DecidableEq, Repr

/-- The persistent store: each Prisma table as a list of rows; `users`
is kept as the list of existing user ids (their snapshotted profile
fields are not read back by any claim). -/
structure Db : Type where
  users : List String
  products : List Product
  orders : List Order
  orderItems : List OrderItem
  keys : List Key
  keyLogs : List KeyLog
deriving DecidableEq, Repr

/-- The parts of an Omise webhook event's `data` payload that the
webhook route reads. -/
structure ChargeEvent : Type where
  id : String
  paid : Option Bool
  status : Option String
  sourceChargeStatus : Option String
  metadataOrderId : Option String
  qrCodeUrl : Option String
deriving DecidableEq, Repr

/-- `prisma.order.findUnique({ where: { id } })`. -/
def findOrderById (db : Db) (orderId : String) : Option Order :=
  db.orders.find? (fun o => o.id = orderId)

/-- `prisma.order.findUnique({ where: { omiseChargeId } })`. -/
def findOrderByCharge (db : Db) (chargeId : String) : Option Order :=
  db.orders.find? (fun o => o.omiseChargeId = some chargeId)

/-- `prisma.order.update({ where: { id }, data: { status } })`. -/
def setOrderStatus (db : Db) (orderId status : String) : Db :=
  { db with orders := db.orders.map (fun o =>
      if o.id = orderId then { o with status := status } else o) }

/-- The `while (existingKey && attempts < 10)` redraw loop of the key
generators: `attemptsLeft` redraws remain for the current slot, `code`
is the current candidate, `pos` the next index of the injected
`generateKey` stream.  Returns the accepted code (or `none` when the
retry budget is exhausted) and the new stream position. -/
def pickGo (stream : Nat → String) (dbCodes : List String) :
    Nat → String → Nat → Option String × Nat
  | attemptsLeft, code, pos =>
    if dbCodes.contains code then
      match attemptsLeft with
      | 0 => (none, pos)
      | n + 1 => pickGo stream dbCodes n (jsToUpperCase (stream pos)) (pos + 1)
    else (some code, pos)

/-- One slot of the generation loop: first draw plus at most 10 redraws
against the uniqueness check `prisma.key.findUnique({ where: { key } })`. -/
def pickUniqueCode (stream : Nat → String) (dbCodes : List String) (pos : Nat) :
    Option String × Nat :=
  pickGo stream dbCodes 10 (jsToUpperCase (stream pos)) (pos + 1)

/-- `for (let i = 0; i < item.quantity; i++) …` of the webhook key
generator: collect the accepted codes in order, skipping (`continue`)
any slot whose retry budget is exhausted. -/
def genCodes (stream : Nat → String) (dbCodes : List String) :
    Nat → Nat → List String × Nat
  | 0, pos => ([], pos)
  | q + 1, pos =>
    match pickUniqueCode stream dbCodes pos with
    | (some c, pos1) =>
      let rest := genCodes stream dbCodes q pos1
      (c :: rest.1, rest.2)
    | (none, pos1) => genCodes stream dbCodes q pos1

/-- The record pushed onto `keysToGenerate` for one accepted code:
placeholder expiration is purchase time + 100 years, activation unset. -/
def mkGeneratedKey (o : Order) (item : OrderItem) (now : DateV) (code : String) : Key :=
  { id := code  -- store-generated primary id, modelled by the unique code
    key := code
    orderId := o.id
    orderItemId := item.id
    productId := item.productId
    userId := o.userId
    productType := item.productType
    productExpireDays := item.productExpireDays
    purchaseDate := now
    expireDate := .addYears now 100
    activateDate := none
    hwid := none
    placeId := none
    isActive := true }

/-- The backward-compatibility copy of the first generated code onto
the legacy `code` field of the order item, when that field is still
empty. -/
def applyLegacyCode (item : OrderItem) (c0 : String) (db : Db) : Db :=
  if item.code = none then
    { db with orderItems := db.orderItems.map (fun it =>
        if it.id = item.id then { it with code := some c0 } else it) }
  else db

/-- Does the list of codes contain the same code twice? -/
def hasDupCode : List String → Bool
  | [] => false
  | c :: cs => cs.contains c || hasDupCode cs

/-- Would inserting rows with these codes violate the unique constraint
on the `key` column: a code repeated inside the batch, or a code
already present in the table.  The per-slot uniqueness retry of the
generator queries only the table, so an in-batch duplicate is not
prevented there. -/
def insertViolates (db : Db) (codes : List String) : Bool :=
  hasDupCode codes || codes.any (fun c => (db.keys.map (fun k => k.key)).contains c)

/-- `prisma.key.createMany`: one atomic batch insert.  When the batch
would violate the unique constraint on `key` the whole call throws and
nothing is persisted (`none`); otherwise all rows are appended. -/
def createManyKeys (db : Db) (newKeys : List Key) : Option Db :=
  if insertViolates db (newKeys.map (fun k => k.key)) then none
  else some { db with keys := db.keys ++ newKeys }

/-- Per-line-item fulfillment of `handleChargeComplete`: for a key-type
item, generate keys only when none exist yet for the item (then also
copy the first code onto the legacy `code` field when it is still
empty); otherwise decrement the product stock by the quantity.  The
returned flag records a thrown `createMany` unique-constraint error
(caught only by the route's outer 500 handler). -/
def fulfillItem (o : Order) (now : DateV) (stream : Nat → String)
    (db : Db) (pos : Nat) (item : OrderItem) : Db × Nat × Bool :=
  if item.productType = "key" then
    if (db.keys.filter (fun k => k.orderItemId = item.id)).isEmpty then
      match genCodes stream (db.keys.map (fun k => k.key)) item.quantity pos with
      | ([], pos1) => (db, pos1, false)
      | (c0 :: rest, pos1) =>
        match createManyKeys db ((c0 :: rest).map (mkGeneratedKey o item now)) with
        | none => (db, pos1, true)
        | some db1 => (applyLegacyCode item c0 db1, pos1, false)
    else (db, pos, false)
  else
    ({ db with products := db.products.map (fun p =>
        if p.id = item.productId then
          { p with stock := p.stock.map (fun s => s - (item.quantity : Int)) }
        else p) }, pos, false)

/-- The `for (const item of orderItems)` loop over the items read for
the order; a thrown `createMany` aborts the loop, keeping the writes
made so far. -/
def fulfillItems (o : Order) (now : DateV) (stream : Nat → String) :
    List OrderItem → Db → Nat → Db × Nat × Bool
  | [], db, pos => (db, pos, false)
  | item :: rest, db, pos =>
    let step := fulfillItem o now stream db pos item
    if step.2.2 then step
    else fulfillItems o now stream rest step.1 step.2.1

/-- Mark the order `paid` and run per-item fulfillment — the block the
source duplicates verbatim in both the successful and the unclear
branch of `handleChargeComplete`. -/
def markPaidAndFulfill (now : DateV) (stream : Nat → String)
    (db : Db) (pos : Nat) (o : Order) : Db × Nat × Bool :=
  let db1 := setOrderStatus db o.id "paid"
  let items := db1.orderItems.filter (fun it => it.orderId = o.id)
  fulfillItems o now stream items db1 pos

/-- `handleChargeComplete` from `src/app/api/webhooks/omise/route.ts`.
The injected `stream`/`pos` model the successive `generateKey()` draws;
the returned `Nat` is the advanced stream position, so replayed
deliveries draw fresh candidates. -/
def handleChargeComplete (ev : ChargeEvent) (now : DateV) (stream : Nat → String)
    (db : Db) (pos : Nat) : Db × Nat × Bool :=
  if ev.paid = some true ∧
      (ev.status = some "successful" ∨ ev.sourceChargeStatus = some "successful") then
    -- successful payment
    match ev.metadataOrderId with
    | none => (db, pos, false)
    | some orderId =>
      match (findOrderByCharge db ev.id).orElse (fun _ => findOrderById db orderId) with
      | none => (db, pos, false)
      | some o =>
        if o.status = "paid" then (db, pos, false)
        else markPaidAndFulfill now stream db pos o
  else if ev.paid ≠ some true ∨ ev.status = some "failed" ∨
      ev.sourceChargeStatus = some "failed" then
    -- failed / not-paid payment: cancel while still pending
    match ev.metadataOrderId with
    | none => (db, pos, false)
    | some orderId =>
      match (findOrderByCharge db ev.id).orElse (fun _ => findOrderById db orderId) with
      | none => (db, pos, false)
      | some o =>
        if o.status = "pending" then (setOrderStatus db o.id "cancelled", pos, false)
        else (db, pos, false)
  else
    -- unclear state: paid === true but neither status field is
    -- 'successful' or 'failed'; the source logs the state and then
    -- runs the same mark-paid-and-fulfill block (lookup by charge id only)
    match ev.metadataOrderId with
    | none => (db, pos, false)
    | some _ =>
      match findOrderByCharge db ev.id with
      | none => (db, pos, false)
      | some o =>
        if o.status = "paid" then (db, pos, false)
        else markPaidAndFulfill now stream db pos o

/-- `handleChargeCreate`: patch the order's charge id and QR url, via a
conditional `updateMany` that writes only while `omiseChargeId` is
still null. -/
def handleChargeCreate (ev : ChargeEvent) (db : Db) : Db :=
  match ev.metadataOrderId with
  | none => db
  | some orderId =>
    match (findOrderById db orderId).orElse (fun _ => findOrderByCharge db ev.id) with
    | none => db
    | some o =>
      let setCharge := o.omiseChargeId = none
      let setQr := ev.qrCodeUrl ≠ none ∧ o.qrCodeUrl = none
      if setCharge ∨ setQr then
        { db with orders := db.orders.map (fun x =>
            if x.id = o.id ∧ x.omiseChargeId = none then
              { x with
                omiseChargeId := if setCharge then some ev.id else x.omiseChargeId
                qrCodeUrl := if setQr then ev.qrCodeUrl else x.qrCodeUrl }
            else x) }
      else db

/-- `handleChargeExpire`: cancel the order found by charge id while it
is still pending. -/
def handleChargeExpire (ev : ChargeEvent) (db : Db) : Db :=
  match findOrderByCharge db ev.id with
  | none => db
  | some o =>
    if o.status = "pending" then setOrderStatus db o.id "cancelled" else db

/-- An HTTP response: status code and the response body's `error` /
`message` text (success bodies are abbreviated to `"ok"` /
`"received"`). -/
structure ApiResponse : Type where
  status : Nat
  message : String
deriving DecidableEq, Repr

/-- Does `pat` occur as a contiguous sublist of the argument? -/
def containsPat (pat : List Char) : List Char → Bool
  | [] => (dropPat pat []).isSome
  | c :: cs => (dropPat pat (c :: cs)).isSome || containsPat pat cs

/-- JavaScript `String.prototype.includes`. -/
def jsIncludes (s sub : String) : Bool :=
  containsPat sub.data s.data

/-- The insufficient-stock condition of the order-creation flow: only
products whose type is neither `'key'` nor `'script'` are
stock-checked; for those the request is rejected when the stock field
is null (or undefined) or below the requested quantity. -/
def stockCheckRejects (productType : String) (stock : Option Int) (quantity : Nat) : Bool :=
  if productType ≠ "key" ∧ productType ≠ "script" then
    match stock with
    | none => true
    | some s => s < (quantity : Int)
  else false

/-- The direct `prisma.order.update` of the creation flow that persists
the charge reference, QR url and payment method onto the freshly
created order (unconditional write, keyed on the order id only). -/
def persistChargeInfo (db : Db) (orderId chargeId : String) (qrCodeUrl : Option String) : Db :=
  { db with orders := db.orders.map (fun o =>
      if o.id = orderId then
        { o with
          omiseChargeId := some chargeId
          qrCodeUrl := qrCodeUrl
          paymentMethod := some "promptpay" }
      else o) }

/-- `prisma.order.delete({ where: { id } })`. -/
def deleteOrder (db : Db) (orderId : String) : Db :=
  { db with orders := db.orders.filter (fun o => o.id ≠ orderId) }

/-- The fresh `pending` Order row the creation flow inserts (charge
reference and QR url still null, payment method set later). -/
def newOrderRow (freshOrderId userId : String) (totalAmount : ℚ) : Order :=
  { id := freshOrderId
    userId := userId
    status := "pending"
    omiseChargeId := none
    qrCodeUrl := none
    paymentMethod := none
    totalAmount := totalAmount }

/-- The OrderItem row the creation flow inserts, with the product
snapshot embedded. -/
def newItemRow (freshItemId freshOrderId productId : String) (product : Product)
    (quantity : Nat) : OrderItem :=
  { id := freshItemId
    orderId := freshOrderId
    productId := productId
    productType := product.type
    productExpireDays := product.expireDays
    quantity := quantity
    price := product.price
    code := none }

/-- The store after the successful tail of the creation flow: insert
the order row, persist the charge info onto it (direct update), then
insert the order item. -/
def createdState (db : Db) (order : Order) (item : OrderItem)
    (chargeId : String) (qr : Option String) : Db :=
  let db1 := { db with orders := db.orders ++ [order] }
  let db2 := persistChargeInfo db1 order.id chargeId qr
  { db2 with orderItems := db2.orderItems ++ [item] }

/-- The charge stage of the creation flow: the order row exists, the
Omise charge is requested; on failure the order is deleted again and
the error mapped to 400 / 500, on success the charge info is persisted
and the order item created. -/
def createOrderCharge (productId userId : String) (quantity : Nat)
    (freshOrderId freshItemId : String) (network : Except String ChargeResp)
    (db : Db) (product : Product) : Db × ApiResponse :=
  match createPromptpayCharge (product.price * (quantity : ℚ)) network with
  | .error msg =>
    if jsIncludes msg "at least" || jsIncludes msg "exceed" then
      (deleteOrder
        { db with orders := db.orders ++
            [newOrderRow freshOrderId userId (product.price * (quantity : ℚ))] }
        freshOrderId,
       ⟨400, "Invalid amount"⟩)
    else
      (deleteOrder
        { db with orders := db.orders ++
            [newOrderRow freshOrderId userId (product.price * (quantity : ℚ))] }
        freshOrderId,
       ⟨500, "Payment creation failed"⟩)
  | .ok charge =>
    (createdState db
      (newOrderRow freshOrderId userId (product.price * (quantity : ℚ)))
      (newItemRow freshItemId freshOrderId productId product quantity)
      charge.id charge.qrCodeUrl,
     ⟨200, "ok"⟩)

/-- The product/amount validation stage of the creation flow, entered
once the product row has been found. -/
def createOrderValidated (productId userId : String) (quantity : Nat)
    (freshOrderId freshItemId : String) (network : Except String ChargeResp)
    (db : Db) (product : Product) : Db × ApiResponse :=
  if ¬ product.isActive then (db, ⟨404, "Product not found"⟩)
  else if product.price < 0 then (db, ⟨400, "Invalid product"⟩)
  else if stockCheckRejects product.type product.stock quantity then
    (db, ⟨400, "Insufficient stock"⟩)
  else if product.price * (quantity : ℚ) < 0 then
    (db, ⟨400, "Invalid order amount"⟩)
  else if jsRound (product.price * (quantity : ℚ) * 100) < 2000 then
    (db, ⟨400, "Amount too low"⟩)
  else if jsRound (product.price * (quantity : ℚ) * 100) > 15000000 then
    (db, ⟨400, "Amount too high"⟩)
  else
    createOrderCharge productId userId quantity freshOrderId freshItemId network db product

/-- The order-creation flow `POST` of `src/app/api/orders/create/route.ts`.
`session` is the authenticated user id, `freshOrderId` / `freshItemId`
are the store-generated identifiers of the rows the flow creates, and
`network` is the injected outcome of the Omise `fetch` inside
`createPromptpayCharge`.  When charge creation fails the just-created
order is deleted again (compensating action) and the error is mapped to
a 400 (amount-limit message) or 500 response. -/
def createOrderPost (session : Option String) (productId userId : String)
    (quantity : Nat) (freshOrderId freshItemId : String)
    (network : Except String ChargeResp) (db : Db) : Db × ApiResponse :=
  match session with
  | none => (db, ⟨401, "Unauthorized"⟩)
  | some sessionUserId =>
    if quantity < 1 then (db, ⟨400, "Invalid request data"⟩)
    else if sessionUserId ≠ userId then (db, ⟨401, "Unauthorized"⟩)
    else if ¬ db.users.contains userId then (db, ⟨404, "User not found"⟩)
    else
      match db.products.find? (fun p => p.id = productId) with
      | none => (db, ⟨404, "Product not found"⟩)
      | some product =>
        createOrderValidated productId userId quantity freshOrderId freshItemId
          network db product

/-- The cancellation flow `POST` of `src/app/api/orders/[id]/cancel/route.ts`.
`gatewayResult` is the injected outcome of the best-effort
`cancelCharge` call; its failure is swallowed by the `try … catch`, so
the order transitions to `cancelled` regardless of it. -/
def cancelOrderPost (session : Option String) (orderId : String)
    (_gatewayResult : Except String Unit) (db : Db) : Db × ApiResponse :=
  match session with
  | none => (db, ⟨401, "Unauthorized"⟩)
  | some sessionUserId =>
    match findOrderById db orderId with
    | none => (db, ⟨404, "Order not found"⟩)
    | some order =>
      if order.userId ≠ sessionUserId then (db, ⟨401, "Unauthorized"⟩)
      else if order.status ≠ "pending" then
        (db, ⟨400, "Only pending orders can be cancelled"⟩)
      else
        -- `cancelCharge` runs only when a charge id exists and its
        -- outcome (`gatewayResult`) is ignored either way
        (setOrderStatus db orderId "cancelled", ⟨200, "Order cancelled successfully"⟩)

/-- `prisma.key.update({ where: { id } })`. -/
def updateKeyRow (db : Db) (keyId : String) (f : Key → Key) : Db :=
  { db with keys := db.keys.map (fun k => if k.id = keyId then f k else k) }

/-- `prisma.keyLog.create`. -/
def addKeyLog (db : Db) (entry : KeyLog) : Db :=
  { db with keyLogs := db.keyLogs ++ [entry] }

/-- The public key verification/activation route (`GET`).  `dateLt`
models the JavaScript `<` comparison on `Date` values (millisecond
order, abstract over the calendar); the resolved `sourceCode` payload
of the response only affects the response body, not the store, and is
not modelled.  On first activation the real expiration is computed by
`calculateExpireDate`; a policy parse failure there is an uncaught
throw, answered by the outer catch with a 500 before any row is
written.  On later calls only the hwid / placeId bindings are
(re)written, when supplied. -/
def verifyKeyGet (keyParam : String) (hwid placeId : Option String)
    (now : DateV) (dateLt : DateV → DateV → Bool) (db : Db) : Db × ApiResponse :=
  if keyParam = "" then (db, ⟨400, "Invalid request data"⟩)
  else
    let norm := jsTrim (jsToUpperCase keyParam)
    match db.keys.find? (fun k => k.key = norm) with
    | none =>
      (addKeyLog db
        { keyId := "", action := "verify", hwid := none, placeId := none,
          success := false, message := "Key not found" },
       ⟨404, "Invalid key"⟩)
    | some keyRecord =>
      if ¬ keyRecord.isActive then
        (addKeyLog db
          { keyId := keyRecord.id, action := "verify", hwid := none,
            placeId := none, success := false, message := "Key is inactive" },
         ⟨400, "Key is inactive"⟩)
      else if keyRecord.activateDate.isSome ∧ dateLt keyRecord.expireDate now then
        (addKeyLog db
          { keyId := keyRecord.id, action := "verify", hwid := none,
            placeId := none, success := false, message := "Key has expired" },
         ⟨400, "Key has expired"⟩)
      else
        let isFirstActivation := keyRecord.activateDate = none
        let bindContext : Key → Key := fun k =>
          { k with
            hwid := if hwid.isSome then hwid else k.hwid
            placeId := if placeId.isSome then placeId else k.placeId }
        if isFirstActivation then
          match calculateExpireDate keyRecord.productExpireDays now with
          | .error _ => (db, ⟨500, "Internal server error"⟩)
          | .ok newExpire =>
            let db1 := updateKeyRow db keyRecord.id (fun k =>
              bindContext { k with activateDate := some now, expireDate := newExpire })
            (addKeyLog db1
              { keyId := keyRecord.id, action := "activate", hwid := hwid,
                placeId := placeId, success := true, message := "Key activated successfully" },
             ⟨200, "ok"⟩)
        else
          let db1 :=
            if hwid.isSome ∨ placeId.isSome then updateKeyRow db keyRecord.id bindContext
            else db
          (addKeyLog db1
            { keyId := keyRecord.id, action := "verify", hwid := hwid,
              placeId := placeId, success := true, message := "Key verified successfully" },
           ⟨200, "ok"⟩)

/-- `crypto.timingSafeEqual` on the UTF-8 buffers of two strings: throws
(`Except.error`) when the byte lengths differ, otherwise compares the
bytes in constant time. -/
def timingSafeEqual (a b : String) : Except Unit Bool :=
  if a.utf8ByteSize = b.utf8ByteSize then .ok (a = b) else .error ()

/-- `verifyOmiseSignature` from the webhook route: with no configured
secret it returns `false`; otherwise it compares the hex HMAC-SHA256 of
the payload (`hmacHex secret payload`, the digest function injected)
against the header value after `signature.replace('sha256=', '')`.  A
`timingSafeEqual` length mismatch propagates as a thrown exception. -/
def verifyOmiseSignature (secret : Option String) (hmacHex : String → String → String)
    (payload signature : String) : Except Unit Bool :=
  match secret with
  | none => .ok false
  | some key =>
    let expectedSignature := hmacHex key payload
    let receivedSignature := jsReplaceFirst signature "sha256="
    timingSafeEqual expectedSignature receivedSignature

/-- The webhook route `POST`: signature handling (absent signatures are
only warned about and the event is processed anyway), then dispatch on
`event.key`.  `parsed` injects the result of `JSON.parse(rawBody)`;
any thrown exception is answered by the outer catch with a 500. -/
def webhookPost (secret : Option String) (hmacHex : String → String → String)
    (rawBody signature : String) (parsed : Except Unit (String × ChargeEvent))
    (now : DateV) (stream : Nat → String) (db : Db) (pos : Nat) :
    Db × Nat × ApiResponse :=
  let processEvent : Db × Nat × ApiResponse :=
    match parsed with
    | .error _ => (db, pos, ⟨500, "Internal server error"⟩)
    | .ok (eventKey, ev) =>
      if eventKey = "charge.create" then (handleChargeCreate ev db, pos, ⟨200, "received"⟩)
      else if eventKey = "charge.complete" then
        let r := handleChargeComplete ev now stream db pos
        (r.1, r.2.1,
         if r.2.2 then ⟨500, "Internal server error"⟩ else ⟨200, "received"⟩)
      else if eventKey = "charge.expire" then (handleChargeExpire ev db, pos, ⟨200, "received"⟩)
      else (db, pos, ⟨200, "received"⟩)
  if signature ≠ "" then
    match verifyOmiseSignature secret hmacHex rawBody signature with
    | .error _ => (db, pos, ⟨500, "Internal server error"⟩)
    | .ok false => (db, pos, ⟨401, "Invalid signature"⟩)
    | .ok true => processEvent
  else processEvent

/-- Spec-side reading of an `"<N>D"` policy: the value of the decimal
digit string `N`. -/
def digitsToNat (l : List Char) : Nat :=
  l.foldl (fun a c => a * 10 + (c.toNat - '0'.toNat)) 0

theorem isDigit_ne {c : Char} (d : Char) (h : c.isDigit = true) (hd : d.isDigit = false) :
    c ≠ d := fun e => by
  rw [e, hd] at h
  exact Bool.false_ne_true h

theorem isDigit_not_space {c : Char} (h : c.isDigit = true) : isJsSpace c = false := by
  simp only [isJsSpace, Bool.or_eq_false_iff, decide_eq_false_iff_not]
  exact ⟨⟨⟨⟨⟨isDigit_ne ' ' h (by decide), isDigit_ne '\t' h (by decide)⟩,
    isDigit_ne '\n' h (by decide)⟩, isDigit_ne '\r' h (by decide)⟩,
    isDigit_ne '\x0b' h (by decide)⟩, isDigit_ne '\x0c' h (by decide)⟩

theorem dropPat_D_cons {c : Char} (cs : List Char) (h : c ≠ 'D') :
    dropPat ['D'] (c :: cs) = none := by
  show (if 'D' = c then dropPat [] cs else none) = none
  rw [if_neg (fun e => h e.symm)]

theorem replaceFirstList_digits_D {l : List Char} (h : ∀ c ∈ l, c.isDigit = true) :
    replaceFirstList ['D'] (l ++ ['D']) = l := by
  induction l with
  | nil => decide
  | cons c cs ih =>
    have hc : c ≠ 'D' := isDigit_ne 'D' (h c (List.mem_cons_self c cs)) (by decide)
    rw [List.cons_append, replaceFirstList, dropPat_D_cons _ hc,
      ih (fun x hx => h x (List.mem_cons_of_mem c hx))]

theorem takeDigits_digits {l : List Char} (h : ∀ c ∈ l, c.isDigit = true) :
    ∀ acc : Nat, takeDigits digitVal 10 l (some acc) =
      some (l.foldl (fun a c => a * 10 + (c.toNat - '0'.toNat)) acc) := by
  induction l with
  | nil => intro acc; rfl
  | cons c cs ih =>
    intro acc
    rw [takeDigits]
    have hc := h c (List.mem_cons_self c cs)
    simp only [digitVal, hc, if_pos, Option.getD_some, List.foldl_cons]
    exact ih (fun x hx => h x (List.mem_cons_of_mem c hx)) _

theorem jsStripSign_nosign {c : Char} (cs : List Char) (h1 : c ≠ '-') (h2 : c ≠ '+') :
    jsStripSign (c :: cs) = (1, c :: cs) := by
  unfold jsStripSign
  split
  · next rest heq => injection heq with e _; exact absurd e h1
  · next rest heq => injection heq with e _; exact absurd e h2
  · rfl

theorem jsMagnitude_digits {l : List Char} (hd : ∀ c ∈ l, c.isDigit = true) :
    jsMagnitude l = takeDigits digitVal 10 l none := by
  unfold jsMagnitude
  split
  · rename_i x rest
    have hx : x.isDigit = true :=
      hd x (List.mem_cons_of_mem _ (List.mem_cons_self x _))
    rw [if_neg]
    rintro (rfl | rfl) <;> simp at hx
  · rfl

theorem jsParseInt_digits {l : List Char} (hne : l ≠ [])
    (hd : ∀ c ∈ l, c.isDigit = true) :
    jsParseInt ⟨l⟩ = some ((digitsToNat l : Int)) := by
  obtain ⟨c, cs, rfl⟩ := List.exists_cons_of_ne_nil hne
  have hc : c.isDigit = true := hd c (List.mem_cons_self c cs)
  have hdrop : (c :: cs).dropWhile (fun x => isJsSpace x) = c :: cs := by
    rw [List.dropWhile_cons, isDigit_not_space hc]
    simp
  show ((jsMagnitude (jsStripSign ((c :: cs).dropWhile (fun x => isJsSpace x))).2).map
      (fun n => (jsStripSign ((c :: cs).dropWhile (fun x => isJsSpace x))).1 * (n : Int))) =
    some (digitsToNat (c :: cs))
  rw [hdrop, jsStripSign_nosign cs (isDigit_ne '-' hc (by decide))
    (isDigit_ne '+' hc (by decide))]
  rw [jsMagnitude_digits hd, takeDigits]
  simp only [digitVal, hc, if_pos, Option.getD_none, Nat.zero_mul, Nat.zero_add]
  rw [takeDigits_digits (fun x hx => hd x (List.mem_cons_of_mem c hx))]
  simp [digitsToNat]

/-- C7 (amended): `calculateExpireDate` returns activation + 100 years
for an absent policy, the empty string, or the capitalised sentinel
`"Never"`; for a policy of the shape digit-string followed by `'D'` it
returns activation + that many days; and it raises the InvalidPolicy
error exactly when JavaScript `parseInt`, after removal of the first
`'D'`, yields `NaN` (so non-`"<N>D"` strings such as `"7x"` may still
be accepted). -/
theorem c7_calculateExpireDate_amended :
    (∀ d, calculateExpireDate none d = .ok (.addYears d 100)) ∧
    (∀ d, calculateExpireDate (some "") d = .ok (.addYears d 100)) ∧
    (∀ d, calculateExpireDate (some "Never") d = .ok (.addYears d 100)) ∧
    (∀ (d : DateV) (l : List Char), l ≠ [] → (∀ c ∈ l, c.isDigit = true) →
      calculateExpireDate (some ⟨l ++ ['D']⟩) d = .ok (.addDays d (digitsToNat l))) ∧
    (∀ (d : DateV) (s : String), s ≠ "" → s ≠ "Never" →
      jsParseInt (jsReplaceFirst s "D") = none →
      calculateExpireDate (some s) d = .error ("Invalid expireDays format: " ++ s)) := by
  refine ⟨fun d => rfl, fun d => rfl, fun d => rfl, ?_, ?_⟩
  · intro d l hne hd
    have hnotnil : l ++ ['D'] ≠ [] := by simp
    have hempty : (⟨l ++ ['D']⟩ : String) ≠ "" := by
      intro h
      exact hnotnil (congrArg String.data h)
    have hnever : (⟨l ++ ['D']⟩ : String) ≠ "Never" := by
      intro h
      have h2 : (l ++ ['D']).getLast? = "Never".data.getLast? :=
        congrArg List.getLast? (congrArg String.data h)
      rw [List.getLast?_concat] at h2
      exact absurd h2 (by decide)
    have hrepl : jsReplaceFirst ⟨l ++ ['D']⟩ "D" = ⟨l⟩ := by
      show (⟨replaceFirstList "D".data (l ++ ['D'])⟩ : String) = ⟨l⟩
      rw [show "D".data = ['D'] from rfl, replaceFirstList_digits_D hd]
    rw [calculateExpireDate, if_neg (by simp [hempty, hnever]), hrepl,
      jsParseInt_digits hne hd]
  · intro d s hs hnever hparse
    rw [calculateExpireDate, if_neg (by simp [hs, hnever]), hparse]

/-- C7 (counterexample): the claim fixes the sentinel as `"never"` and
says every non-`"<N>D"` policy fails, but the code only recognises the
capitalised `"Never"` — the lower-case `"never"` raises InvalidPolicy
instead of yielding +100 years — and it accepts `"7x"` (not of the
shape `"<N>D"`) as 7 days instead of failing. -/
theorem c7_counterexample :
    calculateExpireDate (some "never") .base ≠ .ok (.addYears .base 100) ∧
    calculateExpireDate (some "never") .base = .error "Invalid expireDays format: never" ∧
    calculateExpireDate (some "7x") .base = .ok (.addDays .base 7) := by
  refine ⟨?_, ?_, ?_⟩ <;> decide

/-- C7 (witness): the amended theorem applied at the policies `"7D"`
and `"xD"`. -/
theorem c7_witness :
    calculateExpireDate (some ⟨['7'] ++ ['D']⟩) .base = .ok (.addDays .base (digitsToNat ['7'])) ∧
    calculateExpireDate (some "xD") .base = .error ("Invalid expireDays format: " ++ "xD") :=
  ⟨c7_calculateExpireDate_amended.2.2.2.1 .base ['7'] (by decide) (by decide),
   c7_calculateExpireDate_amended.2.2.2.2 .base "xD" (by decide) (by decide) (by decide)⟩

/-- C8: charge creation converts the amount to satang with
`Math.round(amount * 100)` and rejects it before the network request
exactly when that satang value lies outside `[2000, 15000000]`; in
particular 19.99 and 150000.01 THB are rejected while 20.00 and
150000.00 THB pass the amount validation (the call then returns
whatever the injected network interaction produces). -/
theorem c8_amount_bounds :
    (∀ (a : ℚ) (net : Except String ChargeResp), jsRound (a * 100) < 2000 →
      createPromptpayCharge a net = .error "Amount must be at least THB20.00") ∧
    (∀ (a : ℚ) (net : Except String ChargeResp), 15000000 < jsRound (a * 100) →
      createPromptpayCharge a net = .error "Amount must not exceed THB150,000.00") ∧
    (∀ (a : ℚ) (net : Except String ChargeResp), 2000 ≤ jsRound (a * 100) →
      jsRound (a * 100) ≤ 15000000 → createPromptpayCharge a net = net) ∧
    (∀ net, createPromptpayCharge ((1999 : ℚ) / 100) net =
      .error "Amount must be at least THB20.00") ∧
    (∀ net, createPromptpayCharge ((15000001 : ℚ) / 100) net =
      .error "Amount must not exceed THB150,000.00") ∧
    (∀ net, createPromptpayCharge (20 : ℚ) net = net) ∧
    (∀ net, createPromptpayCharge (150000 : ℚ) net = net) := by
  refine ⟨?_, ?_, ?_, ?_, ?_, ?_, ?_⟩
  · intro a net h
    simp only [createPromptpayCharge]
    rw [if_pos h]
  · intro a net h
    simp only [createPromptpayCharge]
    rw [if_neg (by omega), if_pos h]
  · intro a net h1 h2
    simp only [createPromptpayCharge]
    rw [if_neg (by omega), if_neg (by omega)]
  · intro net; norm_num [createPromptpayCharge, jsRound]
  · intro net; norm_num [createPromptpayCharge, jsRound]
  · intro net; norm_num [createPromptpayCharge, jsRound]
  · intro net; norm_num [createPromptpayCharge, jsRound]

theorem jsRound_zero_lt_2000 : jsRound ((0 : ℚ) * 100) < 2000 := by
  norm_num [jsRound]

/-- C8 (witness): the reject-below-minimum branch applied at amount 0. -/
theorem c8_witness :
    createPromptpayCharge (0 : ℚ) (.ok ⟨"ch_1", none⟩) =
      .error "Amount must be at least THB20.00" :=
  c8_amount_bounds.1 0 (.ok ⟨"ch_1", none⟩) jsRound_zero_lt_2000

/-- C1 (code bug, evaluated at the failing input): a `charge.complete`
payload with `paid = true` but both status fields `'pending'` — neither
clear success nor clear failure — reaches the unclear-state branch,
which marks the pending order as `paid` instead of leaving it
unchanged as the claim (and the comments in the source) state. -/
theorem c1_unclear_state_marks_paid :
    ((handleChargeComplete
        { id := "ch_1", paid := some true, status := some "pending",
          sourceChargeStatus := some "pending", metadataOrderId := some "o1",
          qrCodeUrl := none }
        DateV.base (fun _ => "KEYA")
        { users := [], products := [],
          orders := [
            { id := "o1", userId := "u1", status := "pending",
              omiseChargeId := some "ch_1", qrCodeUrl := none, paymentMethod := none,
              totalAmount := 0 }],
          orderItems := [], keys := [], keyLogs := [] } 0).1.orders.map
      (fun o => o.status)) = ["paid"] ∧ "paid" ≠ "pending" := by
  refine ⟨?_, by decide⟩
  decide

/-- C3 (counterexample): starting from a pending order with no charge
reference, a `charge.create` webhook carrying charge `chrg_b` sets the
reference to `chrg_b`; the creation flow's subsequent direct update
(`persistChargeInfo`, `src/app/api/orders/create/route.ts` line 303)
then overwrites the non-null reference with its own `chrg_a` — a
subsequent write changing a non-null charge reference to a different
value. -/
theorem c3_counterexample :
    ((handleChargeCreate
        { id := "chrg_b", paid := none, status := none, sourceChargeStatus := none,
          metadataOrderId := some "o1", qrCodeUrl := none }
        { users := [], products := [],
          orders := [
            { id := "o1", userId := "u1", status := "pending",
              omiseChargeId := none, qrCodeUrl := none, paymentMethod := none,
              totalAmount := 0 }],
          orderItems := [], keys := [], keyLogs := [] }).orders.map
      (fun o => o.omiseChargeId) = [some "chrg_b"]) ∧
    ((persistChargeInfo
        (handleChargeCreate
          { id := "chrg_b", paid := none, status := none, sourceChargeStatus := none,
            metadataOrderId := some "o1", qrCodeUrl := none }
          { users := [], products := [],
            orders := [
              { id := "o1", userId := "u1", status := "pending",
                omiseChargeId := none, qrCodeUrl := none, paymentMethod := none,
                totalAmount := 0 }],
            orderItems := [], keys := [], keyLogs := [] })
        "o1" "chrg_a" none).orders.map
      (fun o => o.omiseChargeId) = [some "chrg_a"]) ∧
    (some "chrg_a" ≠ some "chrg_b") := by
  refine ⟨?_, ?_, by decide⟩ <;> decide

/-- The `charge.create` handler either leaves the orders table
untouched or rewrites it with a per-row updater that never modifies a
row whose charge reference is already non-null. -/
theorem handleChargeCreate_shape (ev : ChargeEvent) (db : Db) :
    (handleChargeCreate ev db).orders = db.orders ∨
    ∃ f : Order → Order, (∀ x, x.omiseChargeId ≠ none → f x = x) ∧
      (handleChargeCreate ev db).orders = db.orders.map f := by
  unfold handleChargeCreate
  split
  · exact Or.inl rfl
  · split
    · exact Or.inl rfl
    · dsimp only
      split
      · refine Or.inr ⟨_, fun x hx => ?_, rfl⟩
        rw [if_neg]
        rintro ⟨_, hnull⟩
        exact hx hnull
      · exact Or.inl rfl

/-- C3 (amended): the `charge.create` webhook patch never changes a
non-null charge reference (its conditional update writes only while the
reference is still null); the creation flow's direct update always
writes the charge id passed to it, so it preserves the reference
exactly when that value is the one already stored — monotonicity holds
as long as no different charge id reaches the unconditional
creation-path update. -/
theorem c3_amended_monotonicity :
    (∀ (ev : ChargeEvent) (db : Db),
      List.Forall₂ (fun a b => a ≠ none → b = a)
        (db.orders.map (fun o => o.omiseChargeId))
        ((handleChargeCreate ev db).orders.map (fun o => o.omiseChargeId))) ∧
    (∀ (db : Db) (orderId chargeId : String) (qr : Option String),
      List.Forall₂ (fun a b => a = some chargeId → b = some chargeId)
        (db.orders.map (fun o => o.omiseChargeId))
        ((persistChargeInfo db orderId chargeId qr).orders.map (fun o => o.omiseChargeId))) := by
  constructor
  · intro ev db
    rcases handleChargeCreate_shape ev db with h | ⟨f, hf, h⟩
    · rw [h]
      exact List.forall₂_same.mpr (fun x _ _ => rfl)
    · rw [h, List.map_map, List.forall₂_map_left_iff, List.forall₂_map_right_iff]
      refine List.forall₂_same.mpr (fun x _ hx => ?_)
      simp only [Function.comp]
      rw [hf x hx]
  · intro db orderId chargeId qr
    unfold persistChargeInfo
    simp only [List.map_map]
    rw [List.forall₂_map_left_iff, List.forall₂_map_right_iff]
    refine List.forall₂_same.mpr (fun x _ hx => ?_)
    simp only [Function.comp]
    split
    · rfl
    · exact hx

/-- C6: the cancellation route transitions an order to `cancelled`
exactly when the caller owns it and it is still `pending` — and then it
does so regardless of the injected outcome of the best-effort gateway
`cancelCharge` call; a cancellation attempt on a non-pending (`paid` or
already-`cancelled`) order is answered with the 400
`Only pending orders can be cancelled` response and leaves the store
unchanged.  The `charge.expire` handler obeys the same pending-only
guard. -/
theorem c6_cancellation_guard :
    ∀ (sessionUserId orderId : String) (gw : Except String Unit) (db : Db) (o : Order)
      (ev : ChargeEvent) (o2 : Order),
      findOrderById db orderId = some o →
      findOrderByCharge db ev.id = some o2 →
      ((o.userId = sessionUserId ∧ o.status = "pending") →
        cancelOrderPost (some sessionUserId) orderId gw db =
          (setOrderStatus db orderId "cancelled",
            { status := 200, message := "Order cancelled successfully" })) ∧
      (¬ (o.userId = sessionUserId ∧ o.status = "pending") →
        (cancelOrderPost (some sessionUserId) orderId gw db).1 = db ∧
        (cancelOrderPost (some sessionUserId) orderId gw db).2.status ≠ 200) ∧
      (o.userId = sessionUserId → o.status ≠ "pending" →
        (cancelOrderPost (some sessionUserId) orderId gw db).2 =
          { status := 400, message := "Only pending orders can be cancelled" }) ∧
      (o2.status = "pending" →
        handleChargeExpire ev db = setOrderStatus db o2.id "cancelled") ∧
      (o2.status ≠ "pending" → handleChargeExpire ev db = db) := by
  intro sessionUserId orderId gw db o ev o2 hfind hfind2
  have hcancel : cancelOrderPost (some sessionUserId) orderId gw db =
      (if o.userId ≠ sessionUserId then (db, ⟨401, "Unauthorized"⟩)
       else if o.status ≠ "pending" then
         (db, ⟨400, "Only pending orders can be cancelled"⟩)
       else (setOrderStatus db orderId "cancelled",
         ⟨200, "Order cancelled successfully"⟩)) := by
    unfold cancelOrderPost
    rw [hfind]
  have hexp : handleChargeExpire ev db =
      (if o2.status = "pending" then setOrderStatus db o2.id "cancelled" else db) := by
    unfold handleChargeExpire
    rw [hfind2]
  refine ⟨?_, ?_, ?_, ?_, ?_⟩
  · rintro ⟨h1, h2⟩
    rw [hcancel, if_neg (fun hne => hne h1), if_neg (fun hne => hne h2)]
  · intro hno
    rw [hcancel]
    by_cases h1 : o.userId = sessionUserId
    · have h2 : o.status ≠ "pending" := fun h2 => hno ⟨h1, h2⟩
      rw [if_neg (fun hne => hne h1), if_pos h2]
      exact ⟨rfl, show (400 : Nat) ≠ 200 by decide⟩
    · rw [if_pos h1]
      exact ⟨rfl, show (401 : Nat) ≠ 200 by decide⟩
  · intro h1 h2
    rw [hcancel, if_neg (fun hne => hne h1), if_pos h2]
  · intro h
    rw [hexp, if_pos h]
  · intro h
    rw [hexp, if_neg h]

/-- C6 (witness): a pending order owned by the caller is cancelled even
though the gateway cancel call fails; the expire webhook cancels the
same pending order. -/
theorem c6_witness :
    cancelOrderPost (some "u1") "o1" (.error "gateway down")
      { users := [], products := [],
        orders := [
          { id := "o1", userId := "u1", status := "pending",
            omiseChargeId := some "ch_1", qrCodeUrl := none, paymentMethod := none,
            totalAmount := 0 }],
        orderItems := [], keys := [], keyLogs := [] } =
      (setOrderStatus
        { users := [], products := [],
          orders := [
            { id := "o1", userId := "u1", status := "pending",
              omiseChargeId := some "ch_1", qrCodeUrl := none, paymentMethod := none,
              totalAmount := 0 }],
          orderItems := [], keys := [], keyLogs := [] } "o1" "cancelled",
        { status := 200, message := "Order cancelled successfully" }) :=
  (c6_cancellation_guard "u1" "o1" (.error "gateway down")
    { users := [], products := [],
      orders := [
        { id := "o1", userId := "u1", status := "pending",
          omiseChargeId := some "ch_1", qrCodeUrl := none, paymentMethod := none,
          totalAmount := 0 }],
      orderItems := [], keys := [], keyLogs := [] }
    { id := "o1", userId := "u1", status := "pending",
      omiseChargeId := some "ch_1", qrCodeUrl := none, paymentMethod := none,
      totalAmount := 0 }
    { id := "ch_1", paid := none, status := none, sourceChargeStatus := none,
      metadataOrderId := none, qrCodeUrl := none }
    { id := "o1", userId := "u1", status := "pending",
      omiseChargeId := some "ch_1", qrCodeUrl := none, paymentMethod := none,
      totalAmount := 0 }
    rfl rfl).1 ⟨rfl, rfl⟩

/-- A key record with its mutable device bindings erased; used to state
that an operation changes nothing but the bindings. -/
def eraseBindings (k : Key) : Key :=
  { k with hwid := none, placeId := none }

/-- C4: a verification call on a key whose activation timestamp is
already set (a second call) leaves every key row's activation timestamp
and expiration date unchanged — in fact it changes nothing except
possibly the hwid / placeId bindings of the verified key (and appends a
log row). -/
theorem c4_second_verification_immutable :
    ∀ (keyParam : String) (hwid placeId : Option String) (now : DateV)
      (dateLt : DateV → DateV → Bool) (db : Db) (k : Key) (t : DateV),
      db.keys.find? (fun x => x.key = jsTrim (jsToUpperCase keyParam)) = some k →
      k.activateDate = some t →
      ((verifyKeyGet keyParam hwid placeId now dateLt db).1.keys.map eraseBindings =
        db.keys.map eraseBindings) ∧
      ((verifyKeyGet keyParam hwid placeId now dateLt db).1.keys.map
        (fun x => x.activateDate) = db.keys.map (fun x => x.activateDate)) ∧
      ((verifyKeyGet keyParam hwid placeId now dateLt db).1.keys.map
        (fun x => x.expireDate) = db.keys.map (fun x => x.expireDate)) := by
  intro keyParam hwid placeId now dateLt db k t hfind hact
  by_cases hkp : keyParam = ""
  · rw [verifyKeyGet, if_pos hkp]
    exact ⟨rfl, rfl, rfl⟩
  · unfold verifyKeyGet
    rw [if_neg hkp]
    simp only [hfind]
    by_cases hIA : k.isActive = true
    · rw [if_neg (fun h => h hIA)]
      by_cases hexp2 : (k.activateDate.isSome = true ∧ dateLt k.expireDate now = true)
      · rw [if_pos hexp2]
        exact ⟨rfl, rfl, rfl⟩
      · rw [if_neg hexp2]
        rw [if_neg (show ¬ k.activateDate = none by rw [hact]; exact fun h => Option.noConfusion h)]
        by_cases hb : (hwid.isSome = true ∨ placeId.isSome = true)
        · rw [if_pos hb]
          refine ⟨?_, ?_, ?_⟩ <;>
          · show ((updateKeyRow db k.id _).keys.map _ = db.keys.map _)
            simp only [updateKeyRow]
            rw [List.map_map]
            apply List.map_congr_left
            intro x _
            by_cases hid : x.id = k.id
            · simp only [Function.comp, if_pos hid]
              try rfl
            · simp only [Function.comp, if_neg hid]
        · rw [if_neg hb]
          exact ⟨rfl, rfl, rfl⟩
    · rw [if_pos hIA]
      exact ⟨rfl, rfl, rfl⟩

/-- C4 (witness): a second verification of an activated key with a new
hwid supplied. -/
theorem c4_witness :
    ((verifyKeyGet "aaaa-bbbb-cccc-dddd" (some "HW2") none (DateV.addDays .base 1)
      (fun _ _ => false)
      { users := [], products := [], orders := [], orderItems := [],
        keys := [
          { id := "k1", key := "AAAA-BBBB-CCCC-DDDD", orderId := "o1",
            orderItemId := "i1", productId := "p1", userId := "u1",
            productType := "key", productExpireDays := some "7D",
            purchaseDate := .base, expireDate := .addDays .base 7,
            activateDate := some .base, hwid := some "HW1", placeId := none,
            isActive := true }],
        keyLogs := [] }).1.keys.map (fun x => x.activateDate) = [some DateV.base]) :=
  ((c4_second_verification_immutable "aaaa-bbbb-cccc-dddd" (some "HW2") none
    (DateV.addDays .base 1) (fun _ _ => false)
    { users := [], products := [], orders := [], orderItems := [],
      keys := [
        { id := "k1", key := "AAAA-BBBB-CCCC-DDDD", orderId := "o1",
          orderItemId := "i1", productId := "p1", userId := "u1",
          productType := "key", productExpireDays := some "7D",
          purchaseDate := .base, expireDate := .addDays .base 7,
          activateDate := some .base, hwid := some "HW1", placeId := none,
          isActive := true }],
      keyLogs := [] }
    { id := "k1", key := "AAAA-BBBB-CCCC-DDDD", orderId := "o1",
      orderItemId := "i1", productId := "p1", userId := "u1",
      productType := "key", productExpireDays := some "7D",
      purchaseDate := .base, expireDate := .addDays .base 7,
      activateDate := some .base, hwid := some "HW1", placeId := none,
      isActive := true }
    DateV.base rfl rfl).2.1).trans rfl

theorem createPromptpayCharge_err (a : ℚ) (msg : String) :
    ∃ m, createPromptpayCharge a (.error msg) = .error m := by
  unfold createPromptpayCharge
  split
  · exact ⟨_, rfl⟩
  split
  · exact ⟨_, rfl⟩
  · exact ⟨msg, rfl⟩

theorem deleteOrder_fresh (db : Db) (o : Order)
    (h : o.id ∉ db.orders.map (fun x => x.id)) :
    deleteOrder { db with orders := db.orders ++ [o] } o.id = db := by
  simp only [deleteOrder, List.filter_append]
  have h1 : db.orders.filter (fun x => decide (x.id ≠ o.id)) = db.orders := by
    apply List.filter_eq_self.mpr
    intro x hx
    exact decide_eq_true (fun e => h (e ▸ List.mem_map_of_mem (fun y => y.id) hx))
  have h2 : [o].filter (fun x => decide (x.id ≠ o.id)) = [] := by simp
  rw [h1, h2, List.append_nil]

/-- C5: whenever the charge-creation call fails (the injected network
interaction is an error), the order-creation flow either rejected the
request before creating anything or deletes the order it just created;
in both cases the flow returns with the store exactly as before the
call and an error response, never 200 — no order row is left behind
without a charge reference. -/
theorem c5_charge_failure_compensation :
    ∀ (session : Option String) (productId userId : String) (quantity : Nat)
      (freshOrderId freshItemId : String) (msg : String) (db : Db),
      freshOrderId ∉ db.orders.map (fun o => o.id) →
      ∃ r : ApiResponse,
        createOrderPost session productId userId quantity freshOrderId freshItemId
          (.error msg) db = (db, r) ∧ r.status ≠ 200 := by
  intro session productId userId quantity freshOrderId freshItemId msg db hfresh
  have hcharge : ∀ product : Product,
      ∃ r : ApiResponse,
        createOrderCharge productId userId quantity freshOrderId freshItemId
          (.error msg) db product = (db, r) ∧ r.status ≠ 200 := by
    intro product
    unfold createOrderCharge
    obtain ⟨m, hm⟩ := createPromptpayCharge_err (product.price * (quantity : ℚ)) msg
    rw [hm]
    have hdel : deleteOrder
        { db with orders := db.orders ++
            [newOrderRow freshOrderId userId (product.price * (quantity : ℚ))] }
        freshOrderId = db :=
      deleteOrder_fresh db
        (newOrderRow freshOrderId userId (product.price * (quantity : ℚ))) hfresh
    split
    · split
      · exact ⟨_, by rw [hdel], show (400 : Nat) ≠ 200 by decide⟩
      · exact ⟨_, by rw [hdel], show (500 : Nat) ≠ 200 by decide⟩
    · next ch heq => exact absurd heq (by simp)
  have hvalid : ∀ product : Product,
      ∃ r : ApiResponse,
        createOrderValidated productId userId quantity freshOrderId freshItemId
          (.error msg) db product = (db, r) ∧ r.status ≠ 200 := by
    intro product
    unfold createOrderValidated
    split
    · exact ⟨_, rfl, show (404 : Nat) ≠ 200 by decide⟩
    split
    · exact ⟨_, rfl, show (400 : Nat) ≠ 200 by decide⟩
    split
    · exact ⟨_, rfl, show (400 : Nat) ≠ 200 by decide⟩
    split
    · exact ⟨_, rfl, show (400 : Nat) ≠ 200 by decide⟩
    split
    · exact ⟨_, rfl, show (400 : Nat) ≠ 200 by decide⟩
    split
    · exact ⟨_, rfl, show (400 : Nat) ≠ 200 by decide⟩
    · exact hcharge product
  unfold createOrderPost
  split
  · exact ⟨_, rfl, show (401 : Nat) ≠ 200 by decide⟩
  · split
    · exact ⟨_, rfl, show (400 : Nat) ≠ 200 by decide⟩
    split
    · exact ⟨_, rfl, show (401 : Nat) ≠ 200 by decide⟩
    split
    · exact ⟨_, rfl, show (404 : Nat) ≠ 200 by decide⟩
    split
    · exact ⟨_, rfl, show (404 : Nat) ≠ 200 by decide⟩
    · exact hvalid _

/-- C5 (witness): a charge failure on an empty store leaves no order
behind and surfaces an error. -/
theorem c5_witness :
    (createOrderPost (some "u1") "p1" "u1" 1 "o1" "i1" (.error "omise down")
      { users := [], products := [], orders := [], orderItems := [],
        keys := [], keyLogs := [] }).1 =
      { users := [], products := [], orders := [], orderItems := [],
        keys := [], keyLogs := [] } := by
  obtain ⟨r, h1, h2⟩ := c5_charge_failure_compensation (some "u1") "p1" "u1" 1 "o1" "i1"
    "omise down"
    { users := [], products := [], orders := [], orderItems := [],
      keys := [], keyLogs := [] } (by decide)
  rw [h1]

theorem createOrderCharge_message (productId userId : String) (quantity : Nat)
    (freshOrderId freshItemId : String) (net : Except String ChargeResp)
    (db : Db) (product : Product) :
    (createOrderCharge productId userId quantity freshOrderId freshItemId
      net db product).2.message ≠ "Insufficient stock" := by
  unfold createOrderCharge
  split
  · split
    · exact show "Invalid amount" ≠ "Insufficient stock" by decide
    · exact show "Payment creation failed" ≠ "Insufficient stock" by decide
  · exact show "ok" ≠ "Insufficient stock" by decide

theorem createOrderValidated_stock (productId userId : String) (quantity : Nat)
    (freshOrderId freshItemId : String) (net : Except String ChargeResp)
    (db : Db) (product : Product) :
    (createOrderValidated productId userId quantity freshOrderId freshItemId
      net db product).2.message = "Insufficient stock" →
    stockCheckRejects product.type product.stock quantity = true := by
  unfold createOrderValidated
  intro h
  split at h
  · simp at h
  split at h
  · simp at h
  split at h
  · next hstock => exact hstock
  split at h
  · simp at h
  split at h
  · simp at h
  split at h
  · simp at h
  · exact absurd h (createOrderCharge_message productId userId quantity
      freshOrderId freshItemId net db product)

/-- C9 (amended): the insufficient-stock check applies only to products
whose type is neither `'key'` nor `'script'` — for those other types it
fires exactly when the stock field is null or below the requested
quantity, and for `'key'`/`'script'` products it never fires (the stock
field is not even inspected, null included), so the creation flow never
answers `Insufficient stock` for them.  Orders for `'key'`/`'script'`
products remain subject to the independent amount-range checks, so not
every quantity is accepted. -/
theorem c9_stock_check_amended :
    (∀ (stock : Option Int) (q : Nat), stockCheckRejects "key" stock q = false) ∧
    (∀ (stock : Option Int) (q : Nat), stockCheckRejects "script" stock q = false) ∧
    (∀ (t : String) (s : Int) (q : Nat), t ≠ "key" → t ≠ "script" → s < (q : Int) →
      stockCheckRejects t (some s) q = true) ∧
    (∀ (t : String) (q : Nat), t ≠ "key" → t ≠ "script" →
      stockCheckRejects t none q = true) ∧
    (∀ (session : Option String) (productId userId : String) (quantity : Nat)
      (fid iid : String) (net : Except String ChargeResp) (db : Db),
      (createOrderPost session productId userId quantity fid iid net db).2.message =
        "Insufficient stock" →
      ∃ product, db.products.find? (fun p => p.id = productId) = some product ∧
        stockCheckRejects product.type product.stock quantity = true) ∧
    (∀ (sid productId : String) (quantity : Nat) (fid iid : String)
      (net : Except String ChargeResp) (db : Db) (product : Product),
      db.users.contains sid = true →
      db.products.find? (fun p => p.id = productId) = some product →
      product.isActive = true →
      ¬ product.price < 0 →
      1 ≤ quantity →
      stockCheckRejects product.type product.stock quantity = true →
      createOrderPost (some sid) productId sid quantity fid iid net db =
        (db, ⟨400, "Insufficient stock"⟩)) := by
  refine ⟨?_, ?_, ?_, ?_, ?_, ?_⟩
  · intro stock q
    unfold stockCheckRejects
    rw [if_neg (by decide)]
  · intro stock q
    unfold stockCheckRejects
    rw [if_neg (by decide)]
  · intro t s q h1 h2 h3
    unfold stockCheckRejects
    rw [if_pos ⟨h1, h2⟩]
    exact decide_eq_true h3
  · intro t q h1 h2
    unfold stockCheckRejects
    rw [if_pos ⟨h1, h2⟩]
  · intro session productId userId quantity fid iid net db h
    unfold createOrderPost at h
    split at h
    · simp at h
    · split at h
      · simp at h
      split at h
      · simp at h
      split at h
      · simp at h
      split at h
      · simp at h
      · next product heq =>
        exact ⟨product, heq, createOrderValidated_stock productId userId quantity
          fid iid net db product h⟩
  · intro sid productId quantity fid iid net db product hc hfind hact hpr hq hstock
    have hstep : createOrderPost (some sid) productId sid quantity fid iid net db =
        (if quantity < 1 then (db, ⟨400, "Invalid request data"⟩)
         else if sid ≠ sid then (db, ⟨401, "Unauthorized"⟩)
         else if ¬ db.users.contains sid then (db, ⟨404, "User not found"⟩)
         else
           match db.products.find? (fun p => p.id = productId) with
           | none => (db, ⟨404, "Product not found"⟩)
           | some product =>
             createOrderValidated productId sid quantity fid iid net db product) := rfl
    rw [hstep, if_neg (show ¬ quantity < 1 by omega), if_neg (fun hn => hn rfl),
      if_neg (fun hn => hn hc), hfind]
    show createOrderValidated productId sid quantity fid iid net db product =
      (db, ⟨400, "Insufficient stock"⟩)
    unfold createOrderValidated
    rw [if_neg (fun hn => hn hact), if_neg hpr, if_pos hstock]

/-- C9 (witness): the stock check fires for an ordinary item with zero
stock, and the full flow rejects such a request with
`Insufficient stock`; a key-type product with null stock passes the
stock check. -/
theorem c9_witness :
    stockCheckRejects "item" (some 0) 1 = true ∧
    stockCheckRejects "key" none 1000000 = false ∧
    createOrderPost (some "u1") "p1" "u1" 1 "o1" "i1" (.ok ⟨"ch_1", none⟩)
      { users := ["u1"],
        products := [
          { id := "p1", price := 20, stock := some 0, type := "item",
            expireDays := none, isActive := true }],
        orders := [], orderItems := [], keys := [], keyLogs := [] } =
      ({ users := ["u1"],
         products := [
           { id := "p1", price := 20, stock := some 0, type := "item",
             expireDays := none, isActive := true }],
         orders := [], orderItems := [], keys := [], keyLogs := [] },
       ⟨400, "Insufficient stock"⟩) :=
  ⟨c9_stock_check_amended.2.2.1 "item" 0 1 (by decide) (by decide) (by decide),
   c9_stock_check_amended.1 none 1000000,
   c9_stock_check_amended.2.2.2.2.2 "u1" "p1" 1 "o1" "i1" (.ok ⟨"ch_1", none⟩)
     { users := ["u1"],
       products := [
         { id := "p1", price := 20, stock := some 0, type := "item",
           expireDays := none, isActive := true }],
       orders := [], orderItems := [], keys := [], keyLogs := [] }
     { id := "p1", price := 20, stock := some 0, type := "item",
       expireDays := none, isActive := true }
     (by decide) rfl rfl (by norm_num) (by decide) (by decide)⟩

/-- C9 (counterexample): a key-type product is not insulated from every
rejection — the claim says an order is accepted for any requested
quantity, but a quantity of 10000 units at THB 20.00 exceeds the
PromptPay maximum and the flow rejects it with `Amount too high`
(stock is still never consulted). -/
theorem c9_counterexample :
    (createOrderPost (some "u1") "p1" "u1" 10000 "o1" "i1" (.ok ⟨"ch_1", none⟩)
      { users := ["u1"],
        products := [
          { id := "p1", price := 20, stock := some 0, type := "key",
            expireDays := none, isActive := true }],
        orders := [], orderItems := [], keys := [], keyLogs := [] }).2 =
      ⟨400, "Amount too high"⟩ := by
  have h1 : createOrderPost (some "u1") "p1" "u1" 10000 "o1" "i1" (.ok ⟨"ch_1", none⟩)
      { users := ["u1"],
        products := [
          { id := "p1", price := 20, stock := some 0, type := "key",
            expireDays := none, isActive := true }],
        orders := [], orderItems := [], keys := [], keyLogs := [] } =
      createOrderValidated "p1" "u1" 10000 "o1" "i1" (.ok ⟨"ch_1", none⟩)
        { users := ["u1"],
          products := [
            { id := "p1", price := 20, stock := some 0, type := "key",
              expireDays := none, isActive := true }],
          orders := [], orderItems := [], keys := [], keyLogs := [] }
        { id := "p1", price := 20, stock := some 0, type := "key",
          expireDays := none, isActive := true } := rfl
  rw [h1]
  norm_num [createOrderValidated, stockCheckRejects, jsRound]

/-- C10 (counterexample): the header value `Asha256=` followed by 63
`b` characters does not start with `sha256=` and has 71 bytes, so under
the claim (prefix stripping) its stripped form differs in length from
the 64-byte digest and the handler should answer 500; but the code
removes the first occurrence of `sha256=` anywhere, obtaining a
64-byte value, and answers 401 `Invalid signature` instead. -/
theorem c10_counterexample :
    dropPat "sha256=".data
      "Asha256=bbbbbbbbbbbbbbbbbbbbbbbbbbbbbbbbbbbbbbbbbbbbbbbbbbbbbbbbbbbbbbb".data = none ∧
    "Asha256=bbbbbbbbbbbbbbbbbbbbbbbbbbbbbbbbbbbbbbbbbbbbbbbbbbbbbbbbbbbbbbb".utf8ByteSize ≠ 64 ∧
    (webhookPost (some "whsec")
        (fun _ _ => "aaaaaaaaaaaaaaaaaaaaaaaaaaaaaaaaaaaaaaaaaaaaaaaaaaaaaaaaaaaaaaaa")
        "{}" "Asha256=bbbbbbbbbbbbbbbbbbbbbbbbbbbbbbbbbbbbbbbbbbbbbbbbbbbbbbbbbbbbbbb"
        (.error ()) DateV.base (fun _ => "K")
        { users := [], products := [], orders := [], orderItems := [],
          keys := [], keyLogs := [] } 0).2.2 =
      { status := 401, message := "Invalid signature" } ∧
    ({ status := 401, message := "Invalid signature" } : ApiResponse) ≠
      { status := 500, message := "Internal server error" } := by
  refine ⟨?_, ?_, ?_, ?_⟩ <;> decide

/-- C10 (amended): with the signing secret configured and a non-empty
signature header, if the header value after removing the first
occurrence of the substring `sha256=` differs in byte length from the
64-byte hex digest, `timingSafeEqual` throws and the outer catch
answers 500; if it has the same byte length but is not the digest, the
handler answers 401 `Invalid signature`. -/
theorem c10_signature_length_amended :
    ∀ (secretKey rawBody signature : String) (hmacHex : String → String → String)
      (parsed : Except Unit (String × ChargeEvent)) (now : DateV)
      (stream : Nat → String) (db : Db) (pos : Nat),
      signature ≠ "" →
      (hmacHex secretKey rawBody).utf8ByteSize = 64 →
      ((jsReplaceFirst signature "sha256=").utf8ByteSize ≠ 64 →
        (webhookPost (some secretKey) hmacHex rawBody signature parsed
          now stream db pos).2.2 = { status := 500, message := "Internal server error" }) ∧
      ((jsReplaceFirst signature "sha256=").utf8ByteSize = 64 →
        jsReplaceFirst signature "sha256=" ≠ hmacHex secretKey rawBody →
        (webhookPost (some secretKey) hmacHex rawBody signature parsed
          now stream db pos).2.2 = { status := 401, message := "Invalid signature" }) := by
  intro secretKey rawBody signature hmacHex parsed now stream db pos hsig hdig
  constructor
  · intro hlen
    have hv : verifyOmiseSignature (some secretKey) hmacHex rawBody signature =
        .error () := by
      show (if (hmacHex secretKey rawBody).utf8ByteSize =
            (jsReplaceFirst signature "sha256=").utf8ByteSize then
          Except.ok (decide (hmacHex secretKey rawBody = jsReplaceFirst signature "sha256="))
        else Except.error ()) = Except.error ()
      rw [if_neg (fun e => hlen (e.symm.trans hdig))]
    unfold webhookPost
    dsimp only
    rw [if_pos hsig, hv]
  · intro hlen hne
    have hv : verifyOmiseSignature (some secretKey) hmacHex rawBody signature =
        .ok false := by
      show (if (hmacHex secretKey rawBody).utf8ByteSize =
            (jsReplaceFirst signature "sha256=").utf8ByteSize then
          Except.ok (decide (hmacHex secretKey rawBody = jsReplaceFirst signature "sha256="))
        else Except.error ()) = Except.ok false
      rw [if_pos (hdig.trans hlen.symm), decide_eq_false (fun e => hne e.symm)]
    unfold webhookPost
    dsimp only
    rw [if_pos hsig, hv]

/-- C10 (witness): a 3-byte signature value yields the 500 response; a
same-length (64-byte) but wrong value yields 401. -/
theorem c10_witness :
    (webhookPost (some "whsec")
        (fun _ _ => "aaaaaaaaaaaaaaaaaaaaaaaaaaaaaaaaaaaaaaaaaaaaaaaaaaaaaaaaaaaaaaaa")
        "{}" "xyz" (.error ()) DateV.base (fun _ => "K")
        { users := [], products := [], orders := [], orderItems := [],
          keys := [], keyLogs := [] } 0).2.2 =
      { status := 500, message := "Internal server error" } ∧
    (webhookPost (some "whsec")
        (fun _ _ => "aaaaaaaaaaaaaaaaaaaaaaaaaaaaaaaaaaaaaaaaaaaaaaaaaaaaaaaaaaaaaaaa")
        "{}" "sha256=bbbbbbbbbbbbbbbbbbbbbbbbbbbbbbbbbbbbbbbbbbbbbbbbbbbbbbbbbbbbbbbb"
        (.error ()) DateV.base (fun _ => "K")
        { users := [], products := [], orders := [], orderItems := [],
          keys := [], keyLogs := [] } 0).2.2 =
      { status := 401, message := "Invalid signature" } :=
  ⟨(c10_signature_length_amended "whsec" "{}" "xyz"
      (fun _ _ => "aaaaaaaaaaaaaaaaaaaaaaaaaaaaaaaaaaaaaaaaaaaaaaaaaaaaaaaaaaaaaaaa")
      (.error ()) DateV.base (fun _ => "K")
      { users := [], products := [], orders := [], orderItems := [],
        keys := [], keyLogs := [] } 0 (by decide) (by decide)).1 (by decide),
   (c10_signature_length_amended "whsec" "{}"
      "sha256=bbbbbbbbbbbbbbbbbbbbbbbbbbbbbbbbbbbbbbbbbbbbbbbbbbbbbbbbbbbbbbbb"
      (fun _ _ => "aaaaaaaaaaaaaaaaaaaaaaaaaaaaaaaaaaaaaaaaaaaaaaaaaaaaaaaaaaaaaaaa")
      (.error ()) DateV.base (fun _ => "K")
      { users := [], products := [], orders := [], orderItems := [],
        keys := [], keyLogs := [] } 0 (by decide) (by decide)).2 (by decide) (by decide)⟩

/-- One webhook delivery of a `charge.complete` event; the state is the
store together with the current position in the candidate-code stream. -/
def deliver (ev : ChargeEvent) (now : DateV) (stream : Nat → String)
    (s : Db × Nat) : Db × Nat :=
  ((handleChargeComplete ev now stream s.1 s.2).1,
   (handleChargeComplete ev now stream s.1 s.2).2.1)

/-- `N` sequential (re)deliveries of the same event. -/
def deliverN (ev : ChargeEvent) (now : DateV) (stream : Nat → String) :
    Nat → Db × Nat → Db × Nat
  | 0, s => s
  | n + 1, s => deliverN ev now stream n (deliver ev now stream s)

/-- The number of Key rows belonging to one order item. -/
def keysForItem (db : Db) (itemId : String) : Nat :=
  (db.keys.filter (fun k => k.orderItemId = itemId)).length

theorem pickUniqueCode_fresh (stream : Nat → String) (dbCodes : List String) (pos : Nat)
    (h : dbCodes.contains (jsToUpperCase (stream pos)) = false) :
    pickUniqueCode stream dbCodes pos = (some (jsToUpperCase (stream pos)), pos + 1) := by
  unfold pickUniqueCode pickGo
  rw [if_neg (fun e => Bool.false_ne_true (h.symm.trans e))]

theorem genCodes_le (stream : Nat → String) (dbCodes : List String) :
    ∀ (q pos : Nat), (genCodes stream dbCodes q pos).1.length ≤ q := by
  intro q
  induction q with
  | zero => intro pos; exact Nat.le_refl 0
  | succ n ih =>
    intro pos
    rcases hp : pickUniqueCode stream dbCodes pos with ⟨c, pos1⟩
    rw [genCodes, hp]
    cases c with
    | none => exact Nat.le_succ_of_le (ih pos1)
    | some c0 =>
      show (c0 :: (genCodes stream dbCodes n pos1).1).length ≤ n + 1
      rw [List.length_cons]
      exact Nat.succ_le_succ (ih pos1)

theorem genCodes_fresh_spec (stream : Nat → String) (dbCodes : List String) :
    ∀ (q pos : Nat),
      (∀ i < q, dbCodes.contains (jsToUpperCase (stream (pos + i))) = false) →
      (∀ j < q, ∀ i < j,
        jsToUpperCase (stream (pos + i)) ≠ jsToUpperCase (stream (pos + j))) →
      ∃ codes : List String,
        genCodes stream dbCodes q pos = (codes, pos + q) ∧
        codes.length = q ∧
        (∀ c ∈ codes, ∃ i, i < q ∧ c = jsToUpperCase (stream (pos + i))) ∧
        hasDupCode codes = false ∧
        (∀ c ∈ codes, dbCodes.contains c = false) := by
  intro q
  induction q with
  | zero =>
    intro pos _ _
    refine ⟨[], ?_, rfl, by simp, rfl, by simp⟩
    rw [Nat.add_zero]
    exact rfl
  | succ n ih =>
    intro pos h hd
    have h0 : dbCodes.contains (jsToUpperCase (stream pos)) = false := by
      have h0 := h 0 (Nat.succ_pos n)
      rwa [Nat.add_zero] at h0
    obtain ⟨codes, heq, hlen, hmem, hdup, hfr⟩ := ih (pos + 1)
      (fun i hi => by
        have hs := h (i + 1) (Nat.succ_lt_succ hi)
        rwa [show pos + (i + 1) = pos + 1 + i by omega] at hs)
      (fun j hj i hij => by
        have hs := hd (j + 1) (Nat.succ_lt_succ hj) (i + 1) (Nat.succ_lt_succ hij)
        rwa [show pos + (i + 1) = pos + 1 + i by omega,
          show pos + (j + 1) = pos + 1 + j by omega] at hs)
    refine ⟨jsToUpperCase (stream pos) :: codes, ?_, ?_, ?_, ?_, ?_⟩
    · rw [genCodes, pickUniqueCode_fresh stream dbCodes pos h0]
      show (jsToUpperCase (stream pos) :: (genCodes stream dbCodes n (pos + 1)).1,
        (genCodes stream dbCodes n (pos + 1)).2) = _
      rw [heq]
      show (jsToUpperCase (stream pos) :: codes, pos + 1 + n) = _
      rw [show pos + 1 + n = pos + (n + 1) by omega]
    · rw [List.length_cons, hlen]
    · intro c hc
      rcases List.mem_cons.mp hc with hc0 | hcr
      · exact ⟨0, Nat.succ_pos n, by rw [hc0, Nat.add_zero]⟩
      · obtain ⟨i, hi, hci⟩ := hmem c hcr
        refine ⟨i + 1, Nat.succ_lt_succ hi, ?_⟩
        rw [hci, show pos + 1 + i = pos + (i + 1) by omega]
    · show (codes.contains (jsToUpperCase (stream pos)) || hasDupCode codes) = false
      rw [hdup]
      cases hcc : codes.contains (jsToUpperCase (stream pos)) with
      | false => rfl
      | true =>
        exfalso
        have hmemc : jsToUpperCase (stream pos) ∈ codes :=
          List.mem_of_elem_eq_true hcc
        obtain ⟨i, hi, hci⟩ := hmem _ hmemc
        refine hd (i + 1) (Nat.succ_lt_succ hi) 0 (Nat.succ_pos i) ?_
        rw [Nat.add_zero, show pos + (i + 1) = pos + 1 + i by omega]
        exact hci
    · intro c hc
      rcases List.mem_cons.mp hc with hc0 | hcr
      · rw [hc0]; exact h0
      · exact hfr c hcr

theorem fulfillItem_key_outcome (now : DateV) (stream : Nat → String)
    (o : Order) (it : OrderItem) (db : Db) (pos : Nat)
    (hkey : it.productType = "key")
    (hfil : db.keys.filter (fun k => k.orderItemId = it.id) = []) :
    ∃ (newKeys : List Key) (items2 : List OrderItem) (pos2 : Nat) (threw : Bool),
      fulfillItem o now stream db pos it =
        ({ db with orderItems := items2, keys := db.keys ++ newKeys }, pos2, threw) ∧
      (∀ k ∈ newKeys, k.orderItemId = it.id) ∧
      newKeys.length ≤ it.quantity := by
  have hle := genCodes_le stream (db.keys.map (fun k => k.key)) it.quantity pos
  unfold fulfillItem
  rw [if_pos hkey, hfil, if_pos (show ([] : List Key).isEmpty = true from rfl)]
  rcases hgen : genCodes stream (db.keys.map (fun k => k.key)) it.quantity pos
    with ⟨codes, pos2⟩
  rw [hgen] at hle ⊢
  cases codes with
  | nil =>
    refine ⟨[], db.orderItems, pos2, false, ?_, by simp, by simp⟩
    rw [List.append_nil]
  | cons c0 rest =>
    rcases hcm : createManyKeys db ((c0 :: rest).map (mkGeneratedKey o it now)) with _ | db1
    · refine ⟨[], db.orderItems, pos2, true, ?_, by simp, by simp⟩
      show (match createManyKeys db ((c0 :: rest).map (mkGeneratedKey o it now)) with
        | none => (db, pos2, true)
        | some db1 => (applyLegacyCode it c0 db1, pos2, false)) = _
      rw [hcm, List.append_nil]
    · have hdb1 : db1 =
          { db with keys := db.keys ++ (c0 :: rest).map (mkGeneratedKey o it now) } := by
        unfold createManyKeys at hcm
        split at hcm
        · exact absurd hcm (by simp)
        · exact (Option.some_inj.mp hcm).symm
      by_cases hcode : it.code = none
      · refine ⟨(c0 :: rest).map (mkGeneratedKey o it now),
          db.orderItems.map (fun it1 =>
            if it1.id = it.id then { it1 with code := some c0 } else it1),
          pos2, false, ?_, ?_, ?_⟩
        · show (match createManyKeys db ((c0 :: rest).map (mkGeneratedKey o it now)) with
            | none => (db, pos2, true)
            | some db1 => (applyLegacyCode it c0 db1, pos2, false)) = _
          rw [hcm, hdb1]
          show (applyLegacyCode it c0
            { db with keys := db.keys ++ (c0 :: rest).map (mkGeneratedKey o it now) },
            pos2, false) = _
          unfold applyLegacyCode
          rw [if_pos hcode]
        · intro k hk
          obtain ⟨c, _, rfl⟩ := List.mem_map.mp hk
          rfl
        · rw [List.length_map]
          exact hle
      · refine ⟨(c0 :: rest).map (mkGeneratedKey o it now), db.orderItems,
          pos2, false, ?_, ?_, ?_⟩
        · show (match createManyKeys db ((c0 :: rest).map (mkGeneratedKey o it now)) with
            | none => (db, pos2, true)
            | some db1 => (applyLegacyCode it c0 db1, pos2, false)) = _
          rw [hcm, hdb1]
          show (applyLegacyCode it c0
            { db with keys := db.keys ++ (c0 :: rest).map (mkGeneratedKey o it now) },
            pos2, false) = _
          unfold applyLegacyCode
          rw [if_neg hcode]
        · intro k hk
          obtain ⟨c, _, rfl⟩ := List.mem_map.mp hk
          rfl
        · rw [List.length_map]
          exact hle

theorem fulfillItem_key_success (now : DateV) (stream : Nat → String)
    (o : Order) (it : OrderItem) (db : Db) (pos : Nat)
    (hkey : it.productType = "key")
    (hfil : db.keys.filter (fun k => k.orderItemId = it.id) = [])
    (hfresh : ∀ i < it.quantity,
      (db.keys.map (fun k => k.key)).contains (jsToUpperCase (stream (pos + i))) = false)
    (hdist : ∀ j < it.quantity, ∀ i < j,
      jsToUpperCase (stream (pos + i)) ≠ jsToUpperCase (stream (pos + j))) :
    ∃ (newKeys : List Key) (items2 : List OrderItem),
      fulfillItem o now stream db pos it =
        ({ db with orderItems := items2, keys := db.keys ++ newKeys },
         pos + it.quantity, false) ∧
      newKeys.length = it.quantity := by
  obtain ⟨codes, heq, hlen, hmem, hdup, hfr⟩ :=
    genCodes_fresh_spec stream (db.keys.map (fun k => k.key)) it.quantity pos hfresh hdist
  unfold fulfillItem
  rw [if_pos hkey, hfil, if_pos (show ([] : List Key).isEmpty = true from rfl), heq]
  cases codes with
  | nil =>
    refine ⟨[], db.orderItems, ?_, hlen⟩
    rw [List.append_nil]
  | cons c0 rest =>
    have hany : (c0 :: rest).any
        (fun c => (db.keys.map (fun k => k.key)).contains c) = false := by
      rw [List.any_eq_false]
      intro c hc h
      rw [hfr c hc] at h
      exact Bool.false_ne_true h
    have hins : insertViolates db
        (((c0 :: rest).map (mkGeneratedKey o it now)).map (fun k => k.key)) = false := by
      rw [List.map_map]
      show insertViolates db ((c0 :: rest).map (fun c => c)) = false
      rw [List.map_id']
      show (hasDupCode (c0 :: rest) ||
        (c0 :: rest).any (fun c => (db.keys.map (fun k => k.key)).contains c)) = false
      rw [hdup, hany]
      rfl
    have hcm : createManyKeys db ((c0 :: rest).map (mkGeneratedKey o it now)) =
        some { db with keys := db.keys ++ (c0 :: rest).map (mkGeneratedKey o it now) } := by
      unfold createManyKeys
      rw [if_neg (fun h => Bool.false_ne_true (hins.symm.trans h))]
    by_cases hcode : it.code = none
    · refine ⟨(c0 :: rest).map (mkGeneratedKey o it now),
        db.orderItems.map (fun it1 =>
          if it1.id = it.id then { it1 with code := some c0 } else it1), ?_, ?_⟩
      · show (match createManyKeys db ((c0 :: rest).map (mkGeneratedKey o it now)) with
          | none => (db, pos + it.quantity, true)
          | some db1 => (applyLegacyCode it c0 db1, pos + it.quantity, false)) = _
        rw [hcm]
        show (applyLegacyCode it c0
          { db with keys := db.keys ++ (c0 :: rest).map (mkGeneratedKey o it now) },
          pos + it.quantity, false) = _
        unfold applyLegacyCode
        rw [if_pos hcode]
      · rw [List.length_map]
        exact hlen
    · refine ⟨(c0 :: rest).map (mkGeneratedKey o it now), db.orderItems, ?_, ?_⟩
      · show (match createManyKeys db ((c0 :: rest).map (mkGeneratedKey o it now)) with
          | none => (db, pos + it.quantity, true)
          | some db1 => (applyLegacyCode it c0 db1, pos + it.quantity, false)) = _
        rw [hcm]
        show (applyLegacyCode it c0
          { db with keys := db.keys ++ (c0 :: rest).map (mkGeneratedKey o it now) },
          pos + it.quantity, false) = _
        unfold applyLegacyCode
        rw [if_neg hcode]
      · rw [List.length_map]
        exact hlen

theorem fulfillItems_single (o : Order) (now : DateV) (stream : Nat → String)
    (db : Db) (pos : Nat) (it : OrderItem) :
    fulfillItems o now stream [it] db pos = fulfillItem o now stream db pos it := by
  show (if (fulfillItem o now stream db pos it).2.2 = true
      then fulfillItem o now stream db pos it
      else fulfillItems o now stream [] (fulfillItem o now stream db pos it).1
        (fulfillItem o now stream db pos it).2.1) =
    fulfillItem o now stream db pos it
  by_cases hb : (fulfillItem o now stream db pos it).2.2 = true
  · rw [if_pos hb]
  · rw [if_neg hb]
    have hb2 : (fulfillItem o now stream db pos it).2.2 = false := by
      cases h2 : (fulfillItem o now stream db pos it).2.2
      · rfl
      · exact absurd h2 hb
    show ((fulfillItem o now stream db pos it).1,
      (fulfillItem o now stream db pos it).2.1, false) =
      fulfillItem o now stream db pos it
    conv_lhs => rw [← hb2]

theorem deliver_pending_step
    (users : List String) (products : List Product) (logs : List KeyLog)
    (ev : ChargeEvent) (now : DateV) (stream : Nat → String)
    (o : Order) (it : OrderItem) (ks : List Key) (pos : Nat) (mid : String)
    (hpaid : ev.paid = some true)
    (hstat : ev.status = some "successful" ∨ ev.sourceChargeStatus = some "successful")
    (hmid : ev.metadataOrderId = some mid)
    (hcharge : o.omiseChargeId = some ev.id)
    (hpending : o.status = "pending")
    (hito : it.orderId = o.id) :
    deliver ev now stream (⟨users, products, [o], [it], ks, logs⟩, pos) =
      ((fulfillItem o now stream
          ⟨users, products, [{ o with status := "paid" }], [it], ks, logs⟩ pos it).1,
       (fulfillItem o now stream
          ⟨users, products, [{ o with status := "paid" }], [it], ks, logs⟩ pos it).2.1) := by
  have e1 : handleChargeComplete ev now stream ⟨users, products, [o], [it], ks, logs⟩ pos =
      markPaidAndFulfill now stream ⟨users, products, [o], [it], ks, logs⟩ pos o := by
    unfold handleChargeComplete
    rw [if_pos ⟨hpaid, hstat⟩, hmid]
    have hfindo : findOrderByCharge ⟨users, products, [o], [it], ks, logs⟩ ev.id =
        some o := by
      unfold findOrderByCharge
      simp [hcharge]
    rw [hfindo]
    show (if o.status = "paid"
      then ((⟨users, products, [o], [it], ks, logs⟩ : Db), pos, false)
      else markPaidAndFulfill now stream ⟨users, products, [o], [it], ks, logs⟩ pos o) = _
    rw [hpending, if_neg (show ¬ ("pending" : String) = "paid" by decide)]
  have e2 : markPaidAndFulfill now stream ⟨users, products, [o], [it], ks, logs⟩ pos o =
      fulfillItem o now stream
        ⟨users, products, [{ o with status := "paid" }], [it], ks, logs⟩ pos it := by
    unfold markPaidAndFulfill
    have eset : setOrderStatus ⟨users, products, [o], [it], ks, logs⟩ o.id "paid" =
        ⟨users, products, [{ o with status := "paid" }], [it], ks, logs⟩ := by
      unfold setOrderStatus
      rw [show [o].map (fun x => if x.id = o.id then { x with status := "paid" } else x)
          = [{ o with status := "paid" }] by rw [List.map_cons, if_pos rfl]; rfl]
    rw [eset]
    show fulfillItems o now stream
      ([it].filter (fun x => x.orderId = o.id))
      ⟨users, products, [{ o with status := "paid" }], [it], ks, logs⟩ pos = _
    rw [show [it].filter (fun x => x.orderId = o.id) = [it] by
      rw [List.filter_cons, if_pos (by simp [hito])]; rfl]
    exact fulfillItems_single o now stream
      ⟨users, products, [{ o with status := "paid" }], [it], ks, logs⟩ pos it
  show ((handleChargeComplete ev now stream
      (⟨users, products, [o], [it], ks, logs⟩ : Db) pos).1,
    (handleChargeComplete ev now stream
      (⟨users, products, [o], [it], ks, logs⟩ : Db) pos).2.1) = _
  rw [e1, e2]

/-- First delivery of a successful `charge.complete` for a pending
order with a single key-type line item and no keys for it yet: the
order becomes `paid` and at most `quantity` keys are created for the
item — whatever the drawn codes are, and whether or not the atomic
`createMany` throws on them. -/
theorem deliver_success_pending
    (users : List String) (products : List Product) (logs : List KeyLog)
    (ev : ChargeEvent) (now : DateV) (stream : Nat → String)
    (o : Order) (it : OrderItem) (ks : List Key) (pos : Nat) (mid : String)
    (hpaid : ev.paid = some true)
    (hstat : ev.status = some "successful" ∨ ev.sourceChargeStatus = some "successful")
    (hmid : ev.metadataOrderId = some mid)
    (hcharge : o.omiseChargeId = some ev.id)
    (hpending : o.status = "pending")
    (hito : it.orderId = o.id)
    (hkey : it.productType = "key")
    (hnone : ∀ k ∈ ks, ¬ k.orderItemId = it.id) :
    ∃ (newKeys : List Key) (items2 : List OrderItem) (pos2 : Nat),
      deliver ev now stream
        (⟨users, products, [o], [it], ks, logs⟩, pos) =
        (⟨users, products, [{ o with status := "paid" }], items2, ks ++ newKeys, logs⟩, pos2) ∧
      (∀ k ∈ newKeys, k.orderItemId = it.id) ∧
      newKeys.length ≤ it.quantity := by
  have hfil : ks.filter (fun k => k.orderItemId = it.id) = [] :=
    List.filter_eq_nil_iff.mpr
      (fun k hk => by simpa using hnone k hk)
  obtain ⟨newKeys, items2, pos2, threw, hful, hmem, hle⟩ :=
    fulfillItem_key_outcome now stream o it
      ⟨users, products, [{ o with status := "paid" }], [it], ks, logs⟩ pos hkey hfil
  refine ⟨newKeys, items2, pos2, ?_, hmem, hle⟩
  rw [deliver_pending_step users products logs ev now stream o it ks pos mid
    hpaid hstat hmid hcharge hpending hito, hful]

/-- First delivery, fully successful case: when the first `quantity`
candidate codes are pairwise distinct and absent from the key table,
every slot accepts its first draw and the atomic `createMany` commits,
creating exactly `quantity` keys. -/
theorem deliver_success_fresh
    (users : List String) (products : List Product) (logs : List KeyLog)
    (ev : ChargeEvent) (now : DateV) (stream : Nat → String)
    (o : Order) (it : OrderItem) (ks : List Key) (pos : Nat) (mid : String)
    (hpaid : ev.paid = some true)
    (hstat : ev.status = some "successful" ∨ ev.sourceChargeStatus = some "successful")
    (hmid : ev.metadataOrderId = some mid)
    (hcharge : o.omiseChargeId = some ev.id)
    (hpending : o.status = "pending")
    (hito : it.orderId = o.id)
    (hkey : it.productType = "key")
    (hnone : ∀ k ∈ ks, ¬ k.orderItemId = it.id)
    (hfresh : ∀ i < it.quantity,
      (ks.map (fun k => k.key)).contains (jsToUpperCase (stream (pos + i))) = false)
    (hdist : ∀ j < it.quantity, ∀ i < j,
      jsToUpperCase (stream (pos + i)) ≠ jsToUpperCase (stream (pos + j))) :
    ∃ (newKeys : List Key) (items2 : List OrderItem),
      deliver ev now stream
        (⟨users, products, [o], [it], ks, logs⟩, pos) =
        (⟨users, products, [{ o with status := "paid" }], items2, ks ++ newKeys, logs⟩,
         pos + it.quantity) ∧
      newKeys.length = it.quantity := by
  have hfil : ks.filter (fun k => k.orderItemId = it.id) = [] :=
    List.filter_eq_nil_iff.mpr
      (fun k hk => by simpa using hnone k hk)
  obtain ⟨newKeys, items2, hful, hlen⟩ :=
    fulfillItem_key_success now stream o it
      ⟨users, products, [{ o with status := "paid" }], [it], ks, logs⟩ pos hkey hfil
      hfresh hdist
  refine ⟨newKeys, items2, ?_, hlen⟩
  rw [deliver_pending_step users products logs ev now stream o it ks pos mid
    hpaid hstat hmid hcharge hpending hito, hful]

/-- Once the (single) order is `paid` and still carries the event's
charge id, a redelivery of the successful event is a no-op. -/
theorem deliver_paid_fixed (ev : ChargeEvent) (now : DateV) (stream : Nat → String)
    (s : Db × Nat) (o2 : Order) (mid : String)
    (hpaid : ev.paid = some true)
    (hstat : ev.status = some "successful" ∨ ev.sourceChargeStatus = some "successful")
    (hmid : ev.metadataOrderId = some mid)
    (horders : s.1.orders = [o2])
    (hcharge2 : o2.omiseChargeId = some ev.id)
    (hpaid2 : o2.status = "paid") :
    deliver ev now stream s = s := by
  unfold deliver handleChargeComplete
  rw [if_pos ⟨hpaid, hstat⟩, hmid]
  have hfindo : findOrderByCharge s.1 ev.id = some o2 := by
    unfold findOrderByCharge
    rw [horders]
    simp [hcharge2]
  rw [hfindo]
  show ((if o2.status = "paid" then (s.1, s.2, false) else _).1,
    (if o2.status = "paid" then (s.1, s.2, false) else _).2.1) = s
  rw [if_pos hpaid2]

theorem deliverN_fixed (ev : ChargeEvent) (now : DateV) (stream : Nat → String)
    (s : Db × Nat) (h : deliver ev now stream s = s) :
    ∀ M, deliverN ev now stream M s = s := by
  intro M
  induction M with
  | zero => rfl
  | succ n ih => rw [deliverN, h, ih]

/-- C2 (amended): for a pending order with one key-type line item of
quantity `q` and no keys yet, the per-item key count settles at the
first delivery of the successful `charge.complete` event and is the
same after any `N ≥ 1` deliveries: at most `q` keys — exactly `q`
when the first `q` candidate codes drawn are pairwise distinct and
unused (retries and the atomic `createMany` then succeed); retry
exhaustion or a thrown `createMany` leaves fewer, and no replay can
change the count because the order is already `paid`. -/
theorem c2_idempotent_key_generation :
    ∀ (users : List String) (products : List Product) (logs : List KeyLog)
      (ev : ChargeEvent) (now : DateV) (stream : Nat → String)
      (o : Order) (it : OrderItem) (ks : List Key) (pos : Nat) (mid : String),
      ev.paid = some true →
      (ev.status = some "successful" ∨ ev.sourceChargeStatus = some "successful") →
      ev.metadataOrderId = some mid →
      o.omiseChargeId = some ev.id →
      o.status = "pending" →
      it.orderId = o.id →
      it.productType = "key" →
      (∀ k ∈ ks, ¬ k.orderItemId = it.id) →
      ∃ c, c ≤ it.quantity ∧
        (∀ N, 1 ≤ N →
          keysForItem (deliverN ev now stream N
            (⟨users, products, [o], [it], ks, logs⟩, pos)).1 it.id = c) ∧
        ((∀ i < it.quantity,
            (ks.map (fun k => k.key)).contains (jsToUpperCase (stream (pos + i))) = false) →
         (∀ j < it.quantity, ∀ i < j,
            jsToUpperCase (stream (pos + i)) ≠ jsToUpperCase (stream (pos + j))) →
         c = it.quantity) := by
  intro users products logs ev now stream o it ks pos mid
  intro hpaid hstat hmid hcharge hpending hito hkey hnone
  obtain ⟨newKeys, items2, pos2, hstep, hmem, hle⟩ :=
    deliver_success_pending users products logs ev now stream o it ks pos mid
      hpaid hstat hmid hcharge hpending hito hkey hnone
  refine ⟨newKeys.length, hle, ?_, ?_⟩
  · intro N hN
    obtain ⟨M, rfl⟩ : ∃ M, N = M + 1 := ⟨N - 1, by omega⟩
    rw [deliverN, hstep]
    rw [deliverN_fixed ev now stream _
      (deliver_paid_fixed ev now stream _ { o with status := "paid" } mid
        hpaid hstat hmid rfl hcharge rfl) M]
    unfold keysForItem
    show ((ks ++ newKeys).filter (fun k => k.orderItemId = it.id)).length = newKeys.length
    rw [List.filter_append,
      List.filter_eq_nil_iff.mpr (fun k hk => by simpa using hnone k hk),
      List.nil_append,
      List.filter_eq_self.mpr (fun k hk => decide_eq_true (hmem k hk))]
  · intro hfresh hdist
    obtain ⟨newKeys2, items3, hstep2, hlen2⟩ :=
      deliver_success_fresh users products logs ev now stream o it ks pos mid
        hpaid hstat hmid hcharge hpending hito hkey hnone hfresh hdist
    have hpair := hstep.symm.trans hstep2
    have hdbeq : (⟨users, products, [{ o with status := "paid" }],
          items2, ks ++ newKeys, logs⟩ : Db) =
        ⟨users, products, [{ o with status := "paid" }], items3, ks ++ newKeys2, logs⟩ :=
      congrArg Prod.fst hpair
    have hkeq : ks ++ newKeys = ks ++ newKeys2 := congrArg Db.keys hdbeq
    rw [List.append_cancel_left hkeq, hlen2]

/-- C2 (counterexample): with one key already issued whose code `KEYA`
keeps colliding with every candidate the generator draws, the bounded
uniqueness retry exhausts and the slot is skipped (`continue`), so
after two deliveries of the successful event 0 — fewer than the
quantity 1 — Key rows exist for the item, and the replay cannot top it
up because the order is already `paid`. -/
theorem c2_counterexample :
    keysForItem
      (deliverN
        { id := "ch_1", paid := some true, status := some "successful",
          sourceChargeStatus := none, metadataOrderId := some "o1", qrCodeUrl := none }
        DateV.base (fun _ => "KEYA")
        2
        ({ users := [], products := [],
           orders := [
             { id := "o1", userId := "u1", status := "pending",
               omiseChargeId := some "ch_1", qrCodeUrl := none, paymentMethod := none,
               totalAmount := 0 }],
           orderItems := [
             { id := "i1", orderId := "o1", productId := "p1", productType := "key",
               productExpireDays := none, quantity := 1, price := 0, code := none }],
           keys := [
             { id := "KEYA", key := "KEYA", orderId := "o0", orderItemId := "i0",
               productId := "p1", userId := "u0", productType := "key",
               productExpireDays := none, purchaseDate := DateV.base,
               expireDate := DateV.base, activateDate := none, hwid := none,
               placeId := none, isActive := true }],
           keyLogs := [] }, 0)).1 "i1" = 0 ∧
    (0 : Nat) ≠ 1 := by
  exact ⟨by decide, by decide⟩

/-- C2 (witness): the amended theorem applied at a concrete store —
the constant count across the two deliveries equals the quantity 2,
the drawn codes `KEYA`, `KEYB` being distinct and unused. -/
theorem c2_witness :
    keysForItem
      (deliverN
        { id := "ch_1", paid := some true, status := some "successful",
          sourceChargeStatus := none, metadataOrderId := some "o1", qrCodeUrl := none }
        DateV.base (fun i => if i = 0 then "KEYA" else "KEYB")
        2
        ({ users := [], products := [],
           orders := [
             { id := "o1", userId := "u1", status := "pending",
               omiseChargeId := some "ch_1", qrCodeUrl := none, paymentMethod := none,
               totalAmount := 0 }],
           orderItems := [
             { id := "i1", orderId := "o1", productId := "p1", productType := "key",
               productExpireDays := none, quantity := 2, price := 0, code := none }],
           keys := [], keyLogs := [] }, 0)).1 "i1" = 2 := by
  obtain ⟨c, hle, hconst, hq⟩ := c2_idempotent_key_generation [] [] []
    { id := "ch_1", paid := some true, status := some "successful",
      sourceChargeStatus := none, metadataOrderId := some "o1", qrCodeUrl := none }
    DateV.base (fun i => if i = 0 then "KEYA" else "KEYB")
    { id := "o1", userId := "u1", status := "pending",
      omiseChargeId := some "ch_1", qrCodeUrl := none, paymentMethod := none,
      totalAmount := 0 }
    { id := "i1", orderId := "o1", productId := "p1", productType := "key",
      productExpireDays := none, quantity := 2, price := 0, code := none }
    [] 0 "o1"
    rfl (Or.inl rfl) rfl rfl rfl rfl rfl (by simp)
  exact (hconst 2 (by decide)).trans (hq (by decide) (by decide))
